import Mathlib

/-!
# Azure ARM scanner: scan orchestration

A shallow embedding of `pkg/iac/scanners/options/scanner.go` and
`pkg/iac/scanners/azure/arm/scanner.go`.

* Go multi-value returns `(scan.Results, error)` are kept as they are: a result
  list together with an `Option GoError` (`none` is the nil error). A nil slice
  and an empty slice are both the empty list.
* The collaborators the scanner calls but does not define (template parser,
  state adapter, rule catalog, policy interpreter) are fields of `Env`.
* Every call to a collaborator and every poll of the context is appended to an
  event log, which is threaded through the functions. The length of the log is
  the logical time at which the context is observed.
* The mutex of `Scanner` makes each `initRegoScanner` call atomic; calls are
  therefore modelled as running one after the other.
-/

namespace Options

/-- The string type `framework.Framework`. -/
abbrev Framework := String

/-- The interface `ConfigurableScanner`: its three setters, acting on a scanner
state of type `σ`. -/
structure ConfigurableScanner (σ : Type) where
  SetFrameworks : List Framework → σ → σ
  SetRegoOnly : Bool → σ → σ
  SetIncludeDeprecatedChecks : Bool → σ → σ

/-- The closures of type `ScannerOption` that this package builds, each with
the value it captured. -/
inductive ScannerOption where
  | withIncludeDeprecatedChecks (enabled : Bool)
  | withFrameworks (frameworks : List Framework)
  | withRegoOnly (regoOnly : Bool)
  deriving DecidableEq, Repr

/-- Go: `func ScannerWithIncludeDeprecatedChecks(enabled bool) ScannerOption`. -/
def ScannerWithIncludeDeprecatedChecks (enabled : Bool) : ScannerOption :=
  .withIncludeDeprecatedChecks enabled

/-- Go: `func ScannerWithFrameworks(frameworks ...framework.Framework) ScannerOption`. -/
def ScannerWithFrameworks (frameworks : List Framework) : ScannerOption :=
  .withFrameworks frameworks

/-- Go: `func ScannerWithRegoOnly(regoOnly bool) ScannerOption`. -/
def ScannerWithRegoOnly (regoOnly : Bool) : ScannerOption :=
  .withRegoOnly regoOnly

/-- Calling the closure `opt` on a configurable scanner: the body of the
function literal returned by each constructor. -/
def ScannerOption.call {σ : Type} (opt : ScannerOption) (i : ConfigurableScanner σ) (s : σ) : σ :=
  match opt with
  | .withIncludeDeprecatedChecks enabled => i.SetIncludeDeprecatedChecks enabled s
  | .withFrameworks frameworks => i.SetFrameworks frameworks s
  | .withRegoOnly regoOnly => i.SetRegoOnly regoOnly s

end Options

namespace Arm

open Options

/-- A Go `error` value: either an error made by a collaborator, or
`fmt.Errorf(pre + "%w", inner)`. -/
inductive GoError where
  | leaf (msg : String)
  | wrapf (pre : String) (inner : GoError)
  deriving DecidableEq, Repr

/-- The method `Error()`. -/
def GoError.Error : GoError → String
  | .leaf msg => msg
  | .wrapf pre inner => pre ++ inner.Error

/-- The function `errors.Unwrap`. -/
def GoError.Unwrap : GoError → Option GoError
  | .leaf _ => none
  | .wrapf _ inner => some inner

/-- A `context.Context`, as far as cancellation goes: the logical time from
which `Done()` is closed (`none`: never), and what `Err()` returns from then on. -/
structure Context where
  cancelAt : Option Nat
  cause : GoError
  deriving DecidableEq, Repr

/-- Whether the channel `ctx.Done()` is closed at time `now`. -/
def Context.Done (ctx : Context) (now : Nat) : Bool :=
  match ctx.cancelAt with
  | some c => decide (c ≤ now)
  | none => false

/-- The value of `ctx.Err()` at time `now`. -/
def Context.Err (ctx : Context) (now : Nat) : Option GoError :=
  if ctx.Done now then some ctx.cause else none

/-- The types of the collaborators' values. -/
structure Types where
  FS : Type
  Deployment : Type
  State : Type
  Contents : Type
  RegoScanner : Type
  Result : Type

/-- A registered rule, as far as the scanner reads it: the flag `Deprecated`
and the method `Evaluate`; `Number` identifies the rule in the event log. -/
structure Rule (T : Types) where
  Number : Nat
  Deprecated : Bool
  Evaluate : T.State → List T.Result

/-- The struct `rego.Input`. -/
structure Input (T : Types) where
  Path : String
  FS : T.FS
  Contents : T.Contents

/-- The collaborators of the scanner.
`ParseFS fsys ctx dir` is `parser.New(fsys).ParseFS(ctx, dir)`;
`NewScanner opts` is `rego.NewScanner(types.SourceCloud, opts...)`;
`LoadPolicies r srcFS` is `r.LoadPolicies(srcFS)` and gives the receiver after
the call next to the error;
`GetRegistered` is `rules.GetRegistered`; `Adapt` is `arm.Adapt`;
`GetFilename d` is `d.Metadata.Range().GetFilename()`; `ToRego` is
`(*state.State).ToRego`; `ScanInput r ctx input` is `r.ScanInput(ctx, input)`,
whose receiver `r` is a pointer that may be nil. -/
structure Env (T : Types) where
  ParseFS : T.FS → Context → String → List T.Deployment × Option GoError
  NewScanner : List ScannerOption → T.RegoScanner
  LoadPolicies : T.RegoScanner → T.FS → T.RegoScanner × Option GoError
  GetRegistered : List Framework → List (Rule T)
  Adapt : Context → T.Deployment → T.State
  GetFilename : T.Deployment → String
  ToRego : T.State → T.Contents
  ScanInput : Option T.RegoScanner → Context → Input T → List T.Result × Option GoError

/-- The struct `Scanner` (without the mutex, which is the atomicity of
`initRegoScanner`, and without the logger). -/
structure Scanner (T : Types) where
  scannerOptions : List ScannerOption
  frameworks : List Framework
  regoOnly : Bool
  regoScanner : Option T.RegoScanner
  includeDeprecatedChecks : Bool

/-- One observable step of a scan. -/
inductive Event (T : Types) where
  | parseFS (fsys : T.FS) (dir : String)
  | loadPolicies (srcFS : T.FS)
  | adapt (deployment : T.Deployment)
  | getRegistered (frameworks : List Framework)
  | ctxDone (closed : Bool)
  | evaluate (rule : Nat) (st : T.State)
  | scanInput (input : Input T)

/-- What a scanning function hands back: the pair `(scan.Results, error)` it
returns and the event log at that moment. -/
structure Ret (T : Types) where
  results : List T.Result
  err : Option GoError
  log : List (Event T)

/-- Go: `func (s *Scanner) SetIncludeDeprecatedChecks(b bool)`. -/
def Scanner.SetIncludeDeprecatedChecks {T : Types} (b : Bool) (s : Scanner T) : Scanner T :=
  { s with includeDeprecatedChecks := b }

/-- Go: `func (s *Scanner) SetRegoOnly(regoOnly bool)`. -/
def Scanner.SetRegoOnly {T : Types} (regoOnly : Bool) (s : Scanner T) : Scanner T :=
  { s with regoOnly := regoOnly }

/-- Go: `func (s *Scanner) SetFrameworks(frameworks []framework.Framework)`. -/
def Scanner.SetFrameworks {T : Types} (frameworks : List Framework) (s : Scanner T) : Scanner T :=
  { s with frameworks := frameworks }

/-- Go: `var _ options.ConfigurableScanner = (*Scanner)(nil)`. -/
def Scanner.configurable (T : Types) : ConfigurableScanner (Scanner T) where
  SetFrameworks := Scanner.SetFrameworks
  SetRegoOnly := Scanner.SetRegoOnly
  SetIncludeDeprecatedChecks := Scanner.SetIncludeDeprecatedChecks

/-- Go: `func New(opts ...options.ScannerOption) *Scanner`. -/
def New (T : Types) (opts : List ScannerOption) : Scanner T :=
  let scanner : Scanner T :=
    { scannerOptions := opts, frameworks := [], regoOnly := false,
      regoScanner := none, includeDeprecatedChecks := false }
  opts.foldl (fun sc opt => opt.call (Scanner.configurable T) sc) scanner

/-- Go: `func (s *Scanner) initRegoScanner(srcFS fs.FS) error`. Gives the
error, the scanner after the call and the log after the call. -/
def initRegoScanner {T : Types} (env : Env T) (s : Scanner T) (srcFS : T.FS)
    (log : List (Event T)) : Option GoError × Scanner T × List (Event T) :=
  match s.regoScanner with
  | some _ => (none, s, log)
  | none =>
    let regoScanner := env.NewScanner s.scannerOptions
    match env.LoadPolicies regoScanner srcFS with
    | (_, some err) => (some err, s, log ++ [Event.loadPolicies srcFS])
    | (loaded, none) =>
      (none, { s with regoScanner := some loaded }, log ++ [Event.loadPolicies srcFS])

/-- How the loop over the rules ends: with a `return` out of `scanDeployment`,
or by running to its end with the results gathered so far. -/
inductive LoopExit (T : Types) where
  | returned (r : Ret T)
  | finished (results : List T.Result) (log : List (Event T))

/-- The loop `for _, rule := range rules.GetRegistered(...)` of
`scanDeployment`, over the rules still to visit. -/
def evalRules {T : Types} (s : Scanner T) (ctx : Context) (deploymentState : T.State) :
    List (Rule T) → List T.Result → List (Event T) → LoopExit T
  | [], results, log => .finished results log
  | rule :: rest, results, log =>
    if ctx.Done log.length then
      .returned ⟨[], ctx.Err log.length, log ++ [Event.ctxDone true]⟩
    else
      let log1 := log ++ [Event.ctxDone false]
      if !s.includeDeprecatedChecks && rule.Deprecated then
        evalRules s ctx deploymentState rest results log1
      else
        let ruleResults := rule.Evaluate deploymentState
        let log2 := log1 ++ [Event.evaluate rule.Number deploymentState]
        if ruleResults.length > 0 then
          evalRules s ctx deploymentState rest (results ++ ruleResults) log2
        else
          evalRules s ctx deploymentState rest results log2

/-- Go: `func (s *Scanner) scanDeployment(ctx, deployment, fsys)`. -/
def scanDeployment {T : Types} (env : Env T) (s : Scanner T) (ctx : Context)
    (deployment : T.Deployment) (fsys : T.FS) (log : List (Event T)) : Ret T :=
  let deploymentState := env.Adapt ctx deployment
  let log0 := log ++ [Event.adapt deployment]
  let loop :=
    if !s.regoOnly then
      evalRules s ctx deploymentState (env.GetRegistered s.frameworks) []
        (log0 ++ [Event.getRegistered s.frameworks])
    else
      LoopExit.finished [] log0
  match loop with
  | .returned r => r
  | .finished results log1 =>
    let input : Input T :=
      { Path := env.GetFilename deployment
        FS := fsys
        Contents := env.ToRego deploymentState }
    match env.ScanInput s.regoScanner ctx input with
    | (_, some err) =>
      ⟨[], some (GoError.wrapf "rego scan error: " err), log1 ++ [Event.scanInput input]⟩
    | (regoResults, none) =>
      ⟨results ++ regoResults, none, log1 ++ [Event.scanInput input]⟩

/-- The loop of `scanDeployments`, with the results gathered so far. -/
def scanDeploymentsLoop {T : Types} (env : Env T) (s : Scanner T) (ctx : Context) (f : T.FS) :
    List T.Deployment → List T.Result → List (Event T) → Ret T
  | [], results, log => ⟨results, none, log⟩
  | deployment :: rest, results, log =>
    let r := scanDeployment env s ctx deployment f log
    match r.err with
    | some err => ⟨[], some err, r.log⟩
    | none => scanDeploymentsLoop env s ctx f rest (results ++ r.results) r.log

/-- Go: `func (s *Scanner) scanDeployments(ctx, deployments, f)`. -/
def scanDeployments {T : Types} (env : Env T) (s : Scanner T) (ctx : Context)
    (deployments : List T.Deployment) (f : T.FS) (log : List (Event T)) : Ret T :=
  scanDeploymentsLoop env s ctx f deployments [] log

/-- Go: `func (s *Scanner) ScanFS(ctx, fsys, dir)`. Gives what the call returns
and the scanner after the call. -/
def ScanFS {T : Types} (env : Env T) (s : Scanner T) (ctx : Context) (fsys : T.FS)
    (dir : String) (log : List (Event T)) : Ret T × Scanner T :=
  match env.ParseFS fsys ctx dir with
  | (_, some err) => (⟨[], some err, log ++ [Event.parseFS fsys dir]⟩, s)
  | (deployments, none) =>
    match initRegoScanner env s fsys (log ++ [Event.parseFS fsys dir]) with
    | (some err, s1, log1) => (⟨[], some err, log1⟩, s1)
    | (none, s1, log1) => (scanDeployments env s1 ctx deployments fsys log1, s1)

/-! ## Vocabulary of the specification -/

/-- The `rego.Input` that `scanDeployment` hands to `ScanInput` for a
deployment: its file name, the filesystem of the scan, and its adapted state in
rego form. -/
def regoInput {T : Types} (env : Env T) (ctx : Context) (fsys : T.FS)
    (deployment : T.Deployment) : Input T :=
  { Path := env.GetFilename deployment
    FS := fsys
    Contents := env.ToRego (env.Adapt ctx deployment) }

/-- Whether the rule loop, on reaching `rule`, evaluates it: the rule is not
deprecated, or deprecated checks are included. -/
def Scanner.evaluates {T : Types} (s : Scanner T) (rule : Rule T) : Bool :=
  s.includeDeprecatedChecks || !rule.Deprecated

/-- The findings of the evaluated rules for one deployment, in the order
`GetRegistered` gives the rules; none in rego-only mode. -/
def structuralFindings {T : Types} (env : Env T) (s : Scanner T) (ctx : Context)
    (deployment : T.Deployment) : List T.Result :=
  if s.regoOnly then []
  else ((env.GetRegistered s.frameworks).filter s.evaluates).flatMap
    (fun rule => rule.Evaluate (env.Adapt ctx deployment))

/-- The findings `ScanInput` gives for one deployment. -/
def policyFindings {T : Types} (env : Env T) (r : Option T.RegoScanner) (ctx : Context)
    (fsys : T.FS) (deployment : T.Deployment) : List T.Result :=
  (env.ScanInput r ctx (regoInput env ctx fsys deployment)).1

/-- The error `ScanInput` gives for one deployment. -/
def policyError {T : Types} (env : Env T) (r : Option T.RegoScanner) (ctx : Context)
    (fsys : T.FS) (deployment : T.Deployment) : Option GoError :=
  (env.ScanInput r ctx (regoInput env ctx fsys deployment)).2

/-- The events of a rule loop that is never cancelled: one poll of the context
per rule, followed by the evaluation when the rule is evaluated. -/
def ruleEvents {T : Types} (s : Scanner T) (st : T.State) (rules : List (Rule T)) :
    List (Event T) :=
  rules.flatMap (fun rule =>
    Event.ctxDone false :: (if s.evaluates rule then [Event.evaluate rule.Number st] else []))

/-- The events of one deployment whose rule loop is not cancelled. -/
def deploymentEvents {T : Types} (env : Env T) (s : Scanner T) (ctx : Context) (fsys : T.FS)
    (deployment : T.Deployment) : List (Event T) :=
  Event.adapt deployment ::
    ((if s.regoOnly then []
      else Event.getRegistered s.frameworks ::
        ruleEvents s (env.Adapt ctx deployment) (env.GetRegistered s.frameworks)) ++
      [Event.scanInput (regoInput env ctx fsys deployment)])

/-- The input of a `ScanInput` event. -/
def Event.scanInputOf {T : Types} : Event T → Option (Input T)
  | .scanInput input => some input
  | _ => none

/-- The rule number and state of an `Evaluate` event. -/
def Event.evaluateOf {T : Types} : Event T → Option (Nat × T.State)
  | .evaluate rule st => some (rule, st)
  | _ => none

/-- The filesystem of a `LoadPolicies` event. -/
def Event.loadPoliciesOf {T : Types} : Event T → Option T.FS
  | .loadPolicies srcFS => some srcFS
  | _ => none

/-- Events of the structural pass: a query of the catalog, a poll of the
context in the rule loop, an evaluation of a rule. -/
def Event.isStructural {T : Types} : Event T → Bool
  | .getRegistered _ => true
  | .ctxDone _ => true
  | .evaluate _ _ => true
  | _ => false

/-- The environment `env` with another rule catalog. -/
def Env.withCatalog {T : Types} (env : Env T) (catalog : List Framework → List (Rule T)) : Env T :=
  { env with GetRegistered := catalog }

/-- The catalog from which every deprecated rule has been removed. -/
def withoutDeprecated {T : Types} (catalog : List Framework → List (Rule T)) :
    List Framework → List (Rule T) :=
  fun frameworks => (catalog frameworks).filter (fun rule => !rule.Deprecated)

/-- The catalog in which no rule is marked deprecated any more. -/
def undeprecated {T : Types} (catalog : List Framework → List (Rule T)) :
    List Framework → List (Rule T) :=
  fun frameworks => (catalog frameworks).map (fun rule => { rule with Deprecated := false })

/-- A sequence of `initRegoScanner` calls on one scanner, one per filesystem
argument, run one after the other: the errors they return, the scanner and the
log at the end. -/
def initCalls {T : Types} (env : Env T) :
    Scanner T → List T.FS → List (Event T) → List (Option GoError) × Scanner T × List (Event T)
  | s, [], log => ([], s, log)
  | s, srcFS :: rest, log =>
    match initRegoScanner env s srcFS log with
    | (err, s1, log1) =>
      match initCalls env s1 rest log1 with
      | (errs, s2, log2) => (err :: errs, s2, log2)

/-- The framework list an option sets, if it is a `ScannerWithFrameworks` option. -/
def frameworksOf : ScannerOption → Option (List Framework)
  | .withFrameworks frameworks => some frameworks
  | _ => none

/-- The flag an option sets, if it is a `ScannerWithRegoOnly` option. -/
def regoOnlyOf : ScannerOption → Option Bool
  | .withRegoOnly regoOnly => some regoOnly
  | _ => none

/-- The flag an option sets, if it is a `ScannerWithIncludeDeprecatedChecks`
option. -/
def includeDeprecatedChecksOf : ScannerOption → Option Bool
  | .withIncludeDeprecatedChecks enabled => some enabled
  | _ => none

/-- The value carried by the last option of `opts` for which `target` gives a
value, or `zero` when there is none. -/
def lastWrite {α : Type} (target : ScannerOption → Option α) (zero : α)
    (opts : List ScannerOption) : α :=
  ((opts.filterMap target).getLast?).getD zero

/-! ## Concrete collaborators, for the examples -/

/-- Filesystems, deployments, states, rego inputs, interpreters and findings
are all strings in the examples; a deployment is its file name. -/
abbrev DemoT : Types := ⟨String, String, String, String, String, String⟩

/-- A rule reporting the one finding "R1". -/
def ruleR1 (deprecated : Bool) : Rule DemoT :=
  ⟨1, deprecated, fun _ => ["R1"]⟩

/-- A rule reporting the two findings "R2a", "R2b". -/
def ruleR2 (deprecated : Bool) : Rule DemoT :=
  ⟨2, deprecated, fun _ => ["R2a", "R2b"]⟩

/-- Collaborators for the examples. The parser fails on the directory "bad"
and otherwise finds `deployments`; loading fails on the filesystem "broken";
`ScanInput` fails on the path "fail.json" and otherwise reports
`policy` for the path. -/
def demoEnv (deployments : List String) (catalog : List (Rule DemoT))
    (policy : String → List String) : Env DemoT where
  ParseFS := fun _ _ dir =>
    if dir = "bad" then ([], some (GoError.leaf "parse error")) else (deployments, none)
  NewScanner := fun _ => "rego"
  LoadPolicies := fun r srcFS =>
    if srcFS = "broken" then (r, some (GoError.leaf "load error")) else (r ++ "@" ++ srcFS, none)
  GetRegistered := fun _ => catalog
  Adapt := fun _ deployment => "state:" ++ deployment
  GetFilename := fun deployment => deployment
  ToRego := fun st => st
  ScanInput := fun _ _ input =>
    if input.Path = "fail.json" then ([], some (GoError.leaf "eval error")) else (policy input.Path, none)

/-- A context that is never cancelled. -/
def background : Context := ⟨none, GoError.leaf "context canceled"⟩

/-- A context cancelled at logical time 2: in a call on a fresh scanner that
starts with an empty log, it is still open when the parser and the policy load
are called, and cancelled from then on. -/
def cancelledAfterLoad : Context := ⟨some 2, GoError.leaf "context canceled"⟩

/-- A context cancelled at logical time 5: in a call on a fresh scanner that
starts with an empty log, the poll for the first rule of the first deployment,
at time 4, finds it open, and it is cancelled from the evaluation of that rule
on. -/
def cancelledDuringRule : Context := ⟨some 5, GoError.leaf "context canceled"⟩

/-- Collaborators like those of `demoEnv`, with a policy engine that has no
finding and gives up with the context's error when handed a context that has a
cancellation time; in the examples it is called after that time. -/
def ctxAwareEnv (deployments : List String) (catalog : List (Rule DemoT)) : Env DemoT :=
  { demoEnv deployments catalog (fun _ => []) with
    ScanInput := fun _ ctx _ =>
      match ctx.cancelAt with
      | some _ => ([], some ctx.cause)
      | none => ([], none) }

end Arm

/-! ## Lemmas on the scanning loops -/

namespace Arm
open Options

theorem Context.Done_never {ctx : Context} (h : ctx.cancelAt = none) (now : Nat) :
    ctx.Done now = false := by
  simp [Context.Done, h]

theorem Context.Done_from {ctx : Context} {c now : Nat} (h : ctx.cancelAt = some c)
    (hle : c ≤ now) : ctx.Done now = true := by
  simp [Context.Done, h, hle]

theorem Scanner.skip_eq {T : Types} (s : Scanner T) (rule : Rule T) :
    (!s.includeDeprecatedChecks && rule.Deprecated) = !s.evaluates rule := by
  cases h1 : s.includeDeprecatedChecks <;> cases h2 : rule.Deprecated <;>
    simp [Scanner.evaluates, h1, h2]

theorem evalRules_step {T : Types} (s : Scanner T) (ctx : Context) (st : T.State)
    (rule : Rule T) (rest : List (Rule T)) (results : List T.Result) (log : List (Event T))
    (hopen : ctx.Done log.length = false) :
    evalRules s ctx st (rule :: rest) results log =
      evalRules s ctx st rest
        (results ++ (if s.evaluates rule then rule.Evaluate st else []))
        (log ++ Event.ctxDone false ::
          (if s.evaluates rule then [Event.evaluate rule.Number st] else [])) := by
  rw [evalRules]
  simp only [hopen, Scanner.skip_eq]
  cases he : s.evaluates rule
  · simp
  · by_cases hl : (rule.Evaluate st).length > 0
    · simp [hl]
    · have : rule.Evaluate st = [] := by
        cases h : rule.Evaluate st with
        | nil => rfl
        | cons a l => simp [h] at hl
      simp [this]

theorem evalRules_never_cancelled {T : Types} (s : Scanner T) (ctx : Context) (st : T.State)
    (hctx : ctx.cancelAt = none) (rules : List (Rule T)) :
    ∀ (results : List T.Result) (log : List (Event T)),
      evalRules s ctx st rules results log =
        LoopExit.finished
          (results ++ (rules.filter s.evaluates).flatMap (fun rule => rule.Evaluate st))
          (log ++ ruleEvents s st rules) := by
  induction rules with
  | nil => intro results log; simp [evalRules, ruleEvents]
  | cons rule rest ih =>
    intro results log
    rw [evalRules_step s ctx st rule rest results log (Context.Done_never hctx _), ih]
    cases he : s.evaluates rule <;> simp [ruleEvents, List.filter_cons, he]


theorem scanDeployment_eq {T : Types} (env : Env T) (s : Scanner T) (ctx : Context)
    (d : T.Deployment) (fsys : T.FS) (log : List (Event T)) :
    scanDeployment env s ctx d fsys log =
      match (if !s.regoOnly then
          evalRules s ctx (env.Adapt ctx d) (env.GetRegistered s.frameworks) []
            (log ++ [Event.adapt d] ++ [Event.getRegistered s.frameworks])
        else LoopExit.finished [] (log ++ [Event.adapt d])) with
      | .returned r => r
      | .finished results log1 =>
        match env.ScanInput s.regoScanner ctx (regoInput env ctx fsys d) with
        | (_, some err) =>
          ⟨[], some (GoError.wrapf "rego scan error: " err),
            log1 ++ [Event.scanInput (regoInput env ctx fsys d)]⟩
        | (regoResults, none) =>
          ⟨results ++ regoResults, none, log1 ++ [Event.scanInput (regoInput env ctx fsys d)]⟩ :=
  rfl

theorem scanDeployment_uncancelled {T : Types} (env : Env T) (s : Scanner T) (ctx : Context)
    (d : T.Deployment) (fsys : T.FS) (log : List (Event T))
    (h : ctx.cancelAt = none ∨ s.regoOnly = true) :
    scanDeployment env s ctx d fsys log =
      match env.ScanInput s.regoScanner ctx (regoInput env ctx fsys d) with
      | (_, some err) =>
        ⟨[], some (GoError.wrapf "rego scan error: " err),
          log ++ deploymentEvents env s ctx fsys d⟩
      | (regoResults, none) =>
        ⟨structuralFindings env s ctx d ++ regoResults, none,
          log ++ deploymentEvents env s ctx fsys d⟩ := by
  cases hr : s.regoOnly
  · have hctx : ctx.cancelAt = none := by
      rcases h with h | h
      · exact h
      · simp [hr] at h
    simp only [scanDeployment_eq, hr, evalRules_never_cancelled s ctx _ hctx, structuralFindings,
      deploymentEvents, Bool.not_false, if_true]
    split <;> simp
  · simp only [scanDeployment_eq, hr, structuralFindings, deploymentEvents, Bool.not_true,
      Bool.false_eq_true, if_false, if_true]
    split <;> simp

theorem scanDeployment_ok {T : Types} (env : Env T) (s : Scanner T) (ctx : Context)
    (d : T.Deployment) (fsys : T.FS) (log : List (Event T))
    (h : ctx.cancelAt = none ∨ s.regoOnly = true)
    (hok : policyError env s.regoScanner ctx fsys d = none) :
    scanDeployment env s ctx d fsys log =
      ⟨structuralFindings env s ctx d ++ policyFindings env s.regoScanner ctx fsys d, none,
        log ++ deploymentEvents env s ctx fsys d⟩ := by
  rw [scanDeployment_uncancelled env s ctx d fsys log h]
  unfold policyError at hok
  unfold policyFindings
  split
  · next _ err heq => rw [heq] at hok; simp at hok
  · next rs heq => rw [heq]

theorem scanDeployment_fail {T : Types} (env : Env T) (s : Scanner T) (ctx : Context)
    (d : T.Deployment) (fsys : T.FS) (log : List (Event T))
    (h : ctx.cancelAt = none ∨ s.regoOnly = true) (e : GoError)
    (hfail : policyError env s.regoScanner ctx fsys d = some e) :
    scanDeployment env s ctx d fsys log =
      ⟨[], some (GoError.wrapf "rego scan error: " e),
        log ++ deploymentEvents env s ctx fsys d⟩ := by
  rw [scanDeployment_uncancelled env s ctx d fsys log h]
  unfold policyError at hfail
  split
  · next _ err heq => rw [heq] at hfail; simp at hfail; rw [hfail]
  · next rs heq => rw [heq] at hfail; simp at hfail

theorem scanDeploymentsLoop_append {T : Types} (env : Env T) (s : Scanner T) (ctx : Context)
    (f : T.FS) (pre post : List T.Deployment) :
    ∀ (results : List T.Result) (log : List (Event T)),
      scanDeploymentsLoop env s ctx f (pre ++ post) results log =
        match (scanDeploymentsLoop env s ctx f pre results log).err with
        | some _ => scanDeploymentsLoop env s ctx f pre results log
        | none =>
          scanDeploymentsLoop env s ctx f post
            (scanDeploymentsLoop env s ctx f pre results log).results
            (scanDeploymentsLoop env s ctx f pre results log).log := by
  induction pre with
  | nil => intro results log; simp [scanDeploymentsLoop]
  | cons d rest ih =>
    intro results log
    simp only [List.cons_append, scanDeploymentsLoop]
    cases he : (scanDeployment env s ctx d f log).err with
    | some err => simp
    | none => simp only [List.append_eq]; rw [ih]

theorem scanDeploymentsLoop_ok {T : Types} (env : Env T) (s : Scanner T) (ctx : Context)
    (f : T.FS) (h : ctx.cancelAt = none ∨ s.regoOnly = true) (ds : List T.Deployment)
    (hok : ∀ d ∈ ds, policyError env s.regoScanner ctx f d = none) :
    ∀ (results : List T.Result) (log : List (Event T)),
      scanDeploymentsLoop env s ctx f ds results log =
        ⟨results ++ ds.flatMap (fun d =>
            structuralFindings env s ctx d ++ policyFindings env s.regoScanner ctx f d),
          none, log ++ ds.flatMap (deploymentEvents env s ctx f)⟩ := by
  induction ds with
  | nil => intro results log; simp [scanDeploymentsLoop]
  | cons d rest ih =>
    intro results log
    have hd := scanDeployment_ok env s ctx d f log h (hok d (List.mem_cons_self _ _))
    simp only [scanDeploymentsLoop, hd]
    rw [ih (fun d hd => hok d (List.mem_cons_of_mem _ hd))]
    simp


/-! ## Lemmas on `initRegoScanner` and on the event log -/

theorem initRegoScanner_loaded {T : Types} (env : Env T) (s : Scanner T) (srcFS : T.FS)
    (log : List (Event T)) (h : T.RegoScanner) (hs : s.regoScanner = some h) :
    initRegoScanner env s srcFS log = (none, s, log) := by
  simp [initRegoScanner, hs]

theorem initRegoScanner_fresh_ok {T : Types} (env : Env T) (s : Scanner T) (srcFS : T.FS)
    (log : List (Event T)) (loaded : T.RegoScanner) (hs : s.regoScanner = none)
    (hload : env.LoadPolicies (env.NewScanner s.scannerOptions) srcFS = (loaded, none)) :
    initRegoScanner env s srcFS log =
      (none, { s with regoScanner := some loaded }, log ++ [Event.loadPolicies srcFS]) := by
  simp [initRegoScanner, hs, hload]

theorem initRegoScanner_fresh_fail {T : Types} (env : Env T) (s : Scanner T) (srcFS : T.FS)
    (log : List (Event T)) (e : GoError) (hs : s.regoScanner = none)
    (hload : (env.LoadPolicies (env.NewScanner s.scannerOptions) srcFS).2 = some e) :
    initRegoScanner env s srcFS log = (some e, s, log ++ [Event.loadPolicies srcFS]) := by
  simp only [initRegoScanner, hs]
  split
  · next _ err heq => rw [heq] at hload; simp at hload; rw [hload]
  · next _ heq => rw [heq] at hload; simp at hload

theorem initRegoScanner_config {T : Types} (env : Env T) (s : Scanner T) (srcFS : T.FS)
    (log : List (Event T)) :
    (initRegoScanner env s srcFS log).2.1.scannerOptions = s.scannerOptions ∧
    (initRegoScanner env s srcFS log).2.1.frameworks = s.frameworks ∧
    (initRegoScanner env s srcFS log).2.1.regoOnly = s.regoOnly ∧
    (initRegoScanner env s srcFS log).2.1.includeDeprecatedChecks = s.includeDeprecatedChecks := by
  cases hs : s.regoScanner with
  | some h => simp [initRegoScanner, hs]
  | none =>
    rcases hl : env.LoadPolicies (env.NewScanner s.scannerOptions) srcFS with ⟨r, _ | e⟩ <;>
      simp [initRegoScanner, hs, hl]

theorem initRegoScanner_log {T : Types} (env : Env T) (s : Scanner T) (srcFS : T.FS)
    (log : List (Event T)) :
    (initRegoScanner env s srcFS log).2.2 =
      log ++ (if s.regoScanner.isSome then [] else [Event.loadPolicies srcFS]) := by
  cases hs : s.regoScanner with
  | some h => simp [initRegoScanner, hs]
  | none =>
    rcases hl : env.LoadPolicies (env.NewScanner s.scannerOptions) srcFS with ⟨r, _ | e⟩ <;>
      simp [initRegoScanner, hs, hl]

theorem structuralFindings_congr {T : Types} (env : Env T) (s s1 : Scanner T) (ctx : Context)
    (d : T.Deployment) (h1 : s1.frameworks = s.frameworks) (h2 : s1.regoOnly = s.regoOnly)
    (h3 : s1.includeDeprecatedChecks = s.includeDeprecatedChecks) :
    structuralFindings env s1 ctx d = structuralFindings env s ctx d := by
  have he : s1.evaluates = s.evaluates := by
    funext rule; simp [Scanner.evaluates, h3]
  simp [structuralFindings, h1, h2, he]

theorem ruleEvents_scanInputOf {T : Types} (s : Scanner T) (st : T.State)
    (rules : List (Rule T)) :
    (ruleEvents s st rules).filterMap Event.scanInputOf = [] := by
  induction rules with
  | nil => simp [ruleEvents]
  | cons rule rest ih =>
    simp only [ruleEvents, List.flatMap_cons, List.filterMap_append] at ih ⊢
    rw [ih]
    cases s.evaluates rule <;> simp [Event.scanInputOf]

theorem deploymentEvents_scanInputOf {T : Types} (env : Env T) (s : Scanner T) (ctx : Context)
    (fsys : T.FS) (ds : List T.Deployment) :
    (ds.flatMap (deploymentEvents env s ctx fsys)).filterMap Event.scanInputOf =
      ds.map (regoInput env ctx fsys) := by
  induction ds with
  | nil => simp
  | cons d rest ih =>
    simp only [List.flatMap_cons, List.filterMap_append, ih, List.map_cons]
    cases hr : s.regoOnly <;>
      simp [deploymentEvents, hr, Event.scanInputOf, List.filterMap_append,
        ruleEvents_scanInputOf]

/-! ## C1: the results of a successful scan -/

/-- C1. When parsing, policy loading and every `ScanInput` call succeed and the
context is never cancelled, `ScanFS` returns a nil error, and its results are,
for the deployments in parser order, the findings of the evaluated rules in
catalog order followed by the policy findings of the deployment; `ScanInput` is
called exactly once per deployment, in that order. -/
theorem ScanFS_success_results {T : Types} (env : Env T) (s : Scanner T) (ctx : Context)
    (fsys : T.FS) (dir : String) (log : List (Event T)) (deployments : List T.Deployment)
    (hparse : env.ParseFS fsys ctx dir = (deployments, none))
    (hload : (initRegoScanner env s fsys (log ++ [Event.parseFS fsys dir])).1 = none)
    (hscan : ∀ d ∈ deployments,
      policyError env
        (initRegoScanner env s fsys (log ++ [Event.parseFS fsys dir])).2.1.regoScanner
        ctx fsys d = none)
    (hctx : ctx.cancelAt = none) :
    (ScanFS env s ctx fsys dir log).1.err = none ∧
    (ScanFS env s ctx fsys dir log).1.results =
      deployments.flatMap (fun d =>
        structuralFindings env s ctx d ++
          policyFindings env (ScanFS env s ctx fsys dir log).2.regoScanner ctx fsys d) ∧
    ((ScanFS env s ctx fsys dir log).1.log.drop log.length).filterMap Event.scanInputOf =
      deployments.map (regoInput env ctx fsys) := by
  obtain ⟨_, hc1, hc2, hc3⟩ :=
    initRegoScanner_config env s fsys (log ++ [Event.parseFS fsys dir])
  have hlog := initRegoScanner_log env s fsys (log ++ [Event.parseFS fsys dir])
  have hloop := scanDeploymentsLoop_ok env
    (initRegoScanner env s fsys (log ++ [Event.parseFS fsys dir])).2.1 ctx fsys
    (Or.inl hctx) deployments hscan []
    (initRegoScanner env s fsys (log ++ [Event.parseFS fsys dir])).2.2
  have hfs : ScanFS env s ctx fsys dir log =
      (scanDeployments env (initRegoScanner env s fsys (log ++ [Event.parseFS fsys dir])).2.1
        ctx deployments fsys (initRegoScanner env s fsys (log ++ [Event.parseFS fsys dir])).2.2,
       (initRegoScanner env s fsys (log ++ [Event.parseFS fsys dir])).2.1) := by
    simp only [ScanFS, hparse]
    split
    · next err s1 log1 heq => rw [heq] at hload; simp at hload
    · next s1 log1 heq => rw [heq]
  rw [hfs]
  simp only [scanDeployments, hloop, List.nil_append]
  refine ⟨trivial, ?_, ?_⟩
  · congr 1
    funext d
    rw [structuralFindings_congr env s _ ctx d hc1 hc2 hc3]
  · rw [hlog, List.append_assoc, List.append_assoc, List.drop_left, List.filterMap_append,
      List.filterMap_append, deploymentEvents_scanInputOf]
    cases s.regoScanner <;> simp [Event.scanInputOf]

theorem ScanFS_success_results_witness :
    (ScanFS (demoEnv ["a.json", "b.json"] [ruleR1 false, ruleR2 true] (fun p => ["P:" ++ p]))
        (New DemoT []) background "fs" "." []).1.err = none ∧
    (ScanFS (demoEnv ["a.json", "b.json"] [ruleR1 false, ruleR2 true] (fun p => ["P:" ++ p]))
        (New DemoT []) background "fs" "." []).1.results
      = ["R1", "P:a.json", "R1", "P:b.json"] ∧
    (ScanFS (demoEnv ["a.json", "b.json"] [ruleR1 false, ruleR2 true] (fun p => ["P:" ++ p]))
        (New DemoT [ScannerWithIncludeDeprecatedChecks true]) background "fs" "." []).1.results
      = ["R1", "R2a", "R2b", "P:a.json", "R1", "R2a", "R2b", "P:b.json"] := by
  have h1 := ScanFS_success_results
    (demoEnv ["a.json", "b.json"] [ruleR1 false, ruleR2 true] (fun p => ["P:" ++ p]))
    (New DemoT []) background "fs" "." [] ["a.json", "b.json"] rfl rfl (by decide) rfl
  have h2 := ScanFS_success_results
    (demoEnv ["a.json", "b.json"] [ruleR1 false, ruleR2 true] (fun p => ["P:" ++ p]))
    (New DemoT [ScannerWithIncludeDeprecatedChecks true]) background "fs" "." []
    ["a.json", "b.json"] rfl rfl (by decide) rfl
  exact ⟨h1.1, h1.2.1.trans rfl, h2.2.1.trans rfl⟩

/-! ## C2 and C9: errors come with nil results -/

theorem evalRules_cancelled {T : Types} (s : Scanner T) (ctx : Context) (st : T.State)
    (rule : Rule T) (rest : List (Rule T)) (results : List T.Result) (log : List (Event T))
    (hdone : ctx.Done log.length = true) :
    evalRules s ctx st (rule :: rest) results log =
      LoopExit.returned ⟨[], some ctx.cause, log ++ [Event.ctxDone true]⟩ := by
  rw [evalRules]
  simp [hdone, Context.Err]

theorem evalRules_returned {T : Types} (s : Scanner T) (ctx : Context) (st : T.State)
    (rules : List (Rule T)) :
    ∀ (results : List T.Result) (log : List (Event T)) (r : Ret T),
      evalRules s ctx st rules results log = LoopExit.returned r →
        r.results = [] ∧ r.err = some ctx.cause := by
  induction rules with
  | nil => intro results log r h; simp [evalRules] at h
  | cons rule rest ih =>
    intro results log r h
    cases hd : ctx.Done log.length
    · rw [evalRules_step s ctx st rule rest results log hd] at h
      exact ih _ _ r h
    · rw [evalRules_cancelled s ctx st rule rest results log hd] at h
      cases h
      exact ⟨rfl, rfl⟩

theorem scanDeployment_err_results {T : Types} (env : Env T) (s : Scanner T) (ctx : Context)
    (d : T.Deployment) (fsys : T.FS) (log : List (Event T))
    (h : (scanDeployment env s ctx d fsys log).err ≠ none) :
    (scanDeployment env s ctx d fsys log).results = [] := by
  rw [scanDeployment_eq] at h ⊢
  split
  · next r heq =>
    split at heq
    · exact (evalRules_returned s ctx _ _ _ _ r heq).1
    · cases heq
  · next results log1 heq =>
    rw [heq] at h
    simp only at h
    split
    · rfl
    · next rs hsi => rw [hsi] at h; simp at h

theorem scanDeploymentsLoop_err_results {T : Types} (env : Env T) (s : Scanner T)
    (ctx : Context) (f : T.FS) (ds : List T.Deployment) :
    ∀ (results : List T.Result) (log : List (Event T)),
      (scanDeploymentsLoop env s ctx f ds results log).err ≠ none →
        (scanDeploymentsLoop env s ctx f ds results log).results = [] := by
  induction ds with
  | nil => intro results log h; simp [scanDeploymentsLoop] at h
  | cons d rest ih =>
    intro results log h
    rw [scanDeploymentsLoop] at h ⊢
    cases he : (scanDeployment env s ctx d f log).err with
    | some err => simp [he]
    | none =>
      simp only [he] at h ⊢
      exact ih _ _ h

theorem ScanFS_err_results {T : Types} (env : Env T) (s : Scanner T) (ctx : Context)
    (fsys : T.FS) (dir : String) (log : List (Event T))
    (h : (ScanFS env s ctx fsys dir log).1.err ≠ none) :
    (ScanFS env s ctx fsys dir log).1.results = [] := by
  rcases hp : env.ParseFS fsys ctx dir with ⟨ds, _ | e⟩
  · rcases hi : initRegoScanner env s fsys (log ++ [Event.parseFS fsys dir]) with
      ⟨_ | e, s1, log1⟩
    · simp only [ScanFS, hp, hi] at h ⊢
      exact scanDeploymentsLoop_err_results env s1 ctx fsys _ _ _ h
    · simp [ScanFS, hp, hi]
  · simp [ScanFS, hp]

theorem ScanFS_parse_fail {T : Types} (env : Env T) (s : Scanner T) (ctx : Context)
    (fsys : T.FS) (dir : String) (log : List (Event T)) (e : GoError)
    (hparse : (env.ParseFS fsys ctx dir).2 = some e) :
    ScanFS env s ctx fsys dir log = (⟨[], some e, log ++ [Event.parseFS fsys dir]⟩, s) := by
  unfold ScanFS
  split
  · next _ err heq => rw [heq] at hparse; simp at hparse; rw [hparse]
  · next _ heq => rw [heq] at hparse; simp at hparse

theorem ScanFS_init_fail {T : Types} (env : Env T) (s : Scanner T) (ctx : Context)
    (fsys : T.FS) (dir : String) (log : List (Event T)) (e : GoError)
    (hparse : (env.ParseFS fsys ctx dir).2 = none)
    (hinit : (initRegoScanner env s fsys (log ++ [Event.parseFS fsys dir])).1 = some e) :
    ScanFS env s ctx fsys dir log =
      (⟨[], some e, (initRegoScanner env s fsys (log ++ [Event.parseFS fsys dir])).2.2⟩,
        (initRegoScanner env s fsys (log ++ [Event.parseFS fsys dir])).2.1) := by
  unfold ScanFS
  split
  · next _ err heq => rw [heq] at hparse; simp at hparse
  · split
    · next err s1 log1 heq => rw [heq] at hinit ⊢; simp at hinit; rw [hinit]
    · next s1 log1 heq => rw [heq] at hinit; simp at hinit

theorem ScanFS_init_ok {T : Types} (env : Env T) (s : Scanner T) (ctx : Context)
    (fsys : T.FS) (dir : String) (log : List (Event T))
    (hparse : (env.ParseFS fsys ctx dir).2 = none)
    (hinit : (initRegoScanner env s fsys (log ++ [Event.parseFS fsys dir])).1 = none) :
    ScanFS env s ctx fsys dir log =
      (scanDeployments env (initRegoScanner env s fsys (log ++ [Event.parseFS fsys dir])).2.1
        ctx (env.ParseFS fsys ctx dir).1 fsys
        (initRegoScanner env s fsys (log ++ [Event.parseFS fsys dir])).2.2,
       (initRegoScanner env s fsys (log ++ [Event.parseFS fsys dir])).2.1) := by
  unfold ScanFS
  split
  · next _ err heq => rw [heq] at hparse; simp at hparse
  · next ds heq =>
    split
    · next err s1 log1 heq1 => rw [heq1] at hinit; simp at hinit
    · next s1 log1 heq1 => rw [heq1, heq]

theorem scanDeploymentsLoop_fail_at {T : Types} (env : Env T) (s : Scanner T) (ctx : Context)
    (f : T.FS) (pre post : List T.Deployment) (d : T.Deployment) (results : List T.Result)
    (log : List (Event T)) (e : GoError)
    (hpre : (scanDeploymentsLoop env s ctx f pre results log).err = none)
    (hd : (scanDeployment env s ctx d f
      (scanDeploymentsLoop env s ctx f pre results log).log).err = some e) :
    scanDeploymentsLoop env s ctx f (pre ++ d :: post) results log =
      ⟨[], some e,
        (scanDeployment env s ctx d f (scanDeploymentsLoop env s ctx f pre results log).log).log⟩ := by
  rw [scanDeploymentsLoop_append, hpre]
  simp only
  rw [scanDeploymentsLoop, hd]

theorem scanDeployment_policy_fail {T : Types} (env : Env T) (s : Scanner T) (ctx : Context)
    (d : T.Deployment) (fsys : T.FS) (log : List (Event T)) (e : GoError)
    (hfail : policyError env s.regoScanner ctx fsys d = some e) :
    (scanDeployment env s ctx d fsys log).results = [] ∧
    ((scanDeployment env s ctx d fsys log).err = some (GoError.wrapf "rego scan error: " e) ∨
      (scanDeployment env s ctx d fsys log).err = some ctx.cause) := by
  unfold policyError at hfail
  rw [scanDeployment_eq]
  split
  · next r heq =>
    split at heq
    · exact ⟨(evalRules_returned s ctx _ _ _ _ r heq).1,
        Or.inr (evalRules_returned s ctx _ _ _ _ r heq).2⟩
    · cases heq
  · next results log1 heq =>
    split
    · next _ err hsi => rw [hsi] at hfail; simp at hfail; simp [hfail]
    · next rs hsi => rw [hsi] at hfail; simp at hfail

/-- C2. `ScanFS` never returns findings together with an error: a non-nil error
comes with nil results. A parser error and a policy-load error are returned as
such; otherwise `ScanFS` returns what `scanDeployments` returns, which fails
with nil results at the first deployment whose scan returns an error, the
results of the earlier deployments being dropped; the scan of a deployment
returns nil results with its error, be it from a cancellation check, which
drops the findings gathered so far, or from `ScanInput`. -/
theorem ScanFS_all_or_nothing {T : Types} (env : Env T) (s : Scanner T) (ctx : Context)
    (fsys : T.FS) (dir : String) (log : List (Event T)) :
    ((ScanFS env s ctx fsys dir log).1.err ≠ none →
      (ScanFS env s ctx fsys dir log).1.results = []) ∧
    (∀ e, (env.ParseFS fsys ctx dir).2 = some e →
      (ScanFS env s ctx fsys dir log).1.err = some e ∧
      (ScanFS env s ctx fsys dir log).1.results = []) ∧
    (∀ e, (env.ParseFS fsys ctx dir).2 = none →
      (initRegoScanner env s fsys (log ++ [Event.parseFS fsys dir])).1 = some e →
      (ScanFS env s ctx fsys dir log).1.err = some e ∧
      (ScanFS env s ctx fsys dir log).1.results = []) ∧
    ((env.ParseFS fsys ctx dir).2 = none →
      (initRegoScanner env s fsys (log ++ [Event.parseFS fsys dir])).1 = none →
      (ScanFS env s ctx fsys dir log).1 =
        scanDeployments env (initRegoScanner env s fsys (log ++ [Event.parseFS fsys dir])).2.1
          ctx (env.ParseFS fsys ctx dir).1 fsys
          (initRegoScanner env s fsys (log ++ [Event.parseFS fsys dir])).2.2) ∧
    (∀ (s1 : Scanner T) (pre post : List T.Deployment) (d : T.Deployment)
        (l : List (Event T)) (e : GoError),
      (scanDeployments env s1 ctx pre fsys l).err = none →
      (scanDeployment env s1 ctx d fsys (scanDeployments env s1 ctx pre fsys l).log).err
        = some e →
      (scanDeployments env s1 ctx (pre ++ d :: post) fsys l).err = some e ∧
      (scanDeployments env s1 ctx (pre ++ d :: post) fsys l).results = []) ∧
    (∀ (s1 : Scanner T) (d : T.Deployment) (l : List (Event T)),
      (scanDeployment env s1 ctx d fsys l).err ≠ none →
      (scanDeployment env s1 ctx d fsys l).results = []) ∧
    (∀ (s1 : Scanner T) (st : T.State) (rule : Rule T) (rest : List (Rule T))
        (gathered : List T.Result) (l : List (Event T)),
      ctx.Done l.length = true →
      evalRules s1 ctx st (rule :: rest) gathered l =
        LoopExit.returned ⟨[], some ctx.cause, l ++ [Event.ctxDone true]⟩) ∧
    (∀ (s1 : Scanner T) (d : T.Deployment) (l : List (Event T)) (e : GoError),
      policyError env s1.regoScanner ctx fsys d = some e →
      (scanDeployment env s1 ctx d fsys l).results = [] ∧
      ((scanDeployment env s1 ctx d fsys l).err = some (GoError.wrapf "rego scan error: " e) ∨
        (scanDeployment env s1 ctx d fsys l).err = some ctx.cause)) := by
  refine ⟨ScanFS_err_results env s ctx fsys dir log, ?_, ?_, ?_, ?_, ?_, ?_, ?_⟩
  · intro e he
    rw [ScanFS_parse_fail env s ctx fsys dir log e he]
    exact ⟨rfl, rfl⟩
  · intro e hp hi
    rw [ScanFS_init_fail env s ctx fsys dir log e hp hi]
    exact ⟨rfl, rfl⟩
  · intro hp hi
    rw [ScanFS_init_ok env s ctx fsys dir log hp hi]
  · intro s1 pre post d l e hpre hd
    unfold scanDeployments at hpre hd ⊢
    rw [scanDeploymentsLoop_fail_at env s1 ctx fsys pre post d [] l e hpre hd]
    exact ⟨rfl, rfl⟩
  · intro s1 d l h
    exact scanDeployment_err_results env s1 ctx d fsys l h
  · intro s1 st rule rest gathered l hd
    exact evalRules_cancelled s1 ctx st rule rest gathered l hd
  · intro s1 d l e he
    exact scanDeployment_policy_fail env s1 ctx d fsys l e he

theorem ScanFS_all_or_nothing_witness :
    (ScanFS (demoEnv ["a.json", "fail.json"] [ruleR1 false] (fun p => ["P:" ++ p]))
        (New DemoT []) background "fs" "." []).1.err
      = some (GoError.wrapf "rego scan error: " (GoError.leaf "eval error")) ∧
    (ScanFS (demoEnv ["a.json", "fail.json"] [ruleR1 false] (fun p => ["P:" ++ p]))
        (New DemoT []) background "fs" "." []).1.results = [] :=
  ⟨rfl, (ScanFS_all_or_nothing
      (demoEnv ["a.json", "fail.json"] [ruleR1 false] (fun p => ["P:" ++ p]))
      (New DemoT []) background "fs" "." []).1 (by decide)⟩

/-- C9. When the parser returns an error, `ScanFS` returns nil results and that
very error, and the scanner is left as it was; the one event of the call is the
parser call: no policy load, no deployment adapted, no rule evaluated, no
`ScanInput` call. -/
theorem ScanFS_parse_error_fail_fast {T : Types} (env : Env T) (s : Scanner T) (ctx : Context)
    (fsys : T.FS) (dir : String) (log : List (Event T)) (e : GoError)
    (hparse : (env.ParseFS fsys ctx dir).2 = some e) :
    (ScanFS env s ctx fsys dir log).1.results = [] ∧
    (ScanFS env s ctx fsys dir log).1.err = some e ∧
    (ScanFS env s ctx fsys dir log).2 = s ∧
    (ScanFS env s ctx fsys dir log).1.log = log ++ [Event.parseFS fsys dir] := by
  rw [ScanFS_parse_fail env s ctx fsys dir log e hparse]
  exact ⟨rfl, rfl, rfl, rfl⟩

theorem ScanFS_parse_error_fail_fast_witness :
    (demoEnv ["a.json"] [ruleR1 false] (fun p => ["P:" ++ p])).ParseFS "fs" background "bad" =
      ([], some (GoError.leaf "parse error")) ∧
    (ScanFS (demoEnv ["a.json"] [ruleR1 false] (fun p => ["P:" ++ p]))
        (New DemoT []) background "fs" "bad" []).1.results = [] ∧
    (ScanFS (demoEnv ["a.json"] [ruleR1 false] (fun p => ["P:" ++ p]))
        (New DemoT []) background "fs" "bad" []).1.err = some (GoError.leaf "parse error") ∧
    (ScanFS (demoEnv ["a.json"] [ruleR1 false] (fun p => ["P:" ++ p]))
        (New DemoT []) background "fs" "bad" []).2 = New DemoT [] ∧
    (ScanFS (demoEnv ["a.json"] [ruleR1 false] (fun p => ["P:" ++ p]))
        (New DemoT []) background "fs" "bad" []).1.log = [] ++ [Event.parseFS "fs" "bad"] :=
  ⟨rfl, ScanFS_parse_error_fail_fast
      (demoEnv ["a.json"] [ruleR1 false] (fun p => ["P:" ++ p]))
      (New DemoT []) background "fs" "bad" [] (GoError.leaf "parse error") rfl⟩

/-! ## C3: rego-only mode -/

theorem scanDeploymentsLoop_congr {T : Types} (env env1 : Env T) (s : Scanner T)
    (ctx : Context) (f : T.FS)
    (h : ∀ d log, scanDeployment env1 s ctx d f log = scanDeployment env s ctx d f log)
    (ds : List T.Deployment) :
    ∀ (results : List T.Result) (log : List (Event T)),
      scanDeploymentsLoop env1 s ctx f ds results log =
        scanDeploymentsLoop env s ctx f ds results log := by
  induction ds with
  | nil => intro results log; simp [scanDeploymentsLoop]
  | cons d rest ih =>
    intro results log
    simp only [scanDeploymentsLoop, h, ih]

theorem scanDeployment_regoOnly_catalog {T : Types} (env : Env T) (s : Scanner T)
    (ctx : Context) (fsys : T.FS) (hrego : s.regoOnly = true)
    (catalog : List Framework → List (Rule T)) (d : T.Deployment) (log : List (Event T)) :
    scanDeployment (env.withCatalog catalog) s ctx d fsys log =
      scanDeployment env s ctx d fsys log := by
  simp [scanDeployment_eq, hrego, Env.withCatalog, regoInput]

theorem scanDeployment_regoOnly_log {T : Types} (env : Env T) (s : Scanner T)
    (ctx : Context) (fsys : T.FS) (hrego : s.regoOnly = true) (d : T.Deployment)
    (log : List (Event T)) :
    (scanDeployment env s ctx d fsys log).log =
      log ++ [Event.adapt d, Event.scanInput (regoInput env ctx fsys d)] := by
  rw [scanDeployment_uncancelled env s ctx d fsys log (Or.inr hrego)]
  split <;> simp [deploymentEvents, hrego]

theorem scanDeploymentsLoop_regoOnly_log {T : Types} (env : Env T) (s : Scanner T)
    (ctx : Context) (f : T.FS) (hrego : s.regoOnly = true) (ds : List T.Deployment) :
    ∀ (results : List T.Result) (log : List (Event T)),
      (scanDeploymentsLoop env s ctx f ds results log).log.filter Event.isStructural =
        log.filter Event.isStructural := by
  induction ds with
  | nil => intro results log; simp [scanDeploymentsLoop]
  | cons d rest ih =>
    intro results log
    have hl := scanDeployment_regoOnly_log env s ctx f hrego d log
    rw [scanDeploymentsLoop]
    cases he : (scanDeployment env s ctx d f log).err with
    | some err => simp [hl, Event.isStructural]
    | none => simp only; rw [ih, hl]; simp [Event.isStructural]

theorem scanDeploymentsLoop_regoOnly_results {T : Types} (env : Env T) (s : Scanner T)
    (ctx : Context) (f : T.FS) (hrego : s.regoOnly = true) (ds : List T.Deployment) :
    ∀ (results : List T.Result) (log : List (Event T)),
      (scanDeploymentsLoop env s ctx f ds results log).err = none →
      (scanDeploymentsLoop env s ctx f ds results log).results =
        results ++ ds.flatMap (policyFindings env s.regoScanner ctx f) := by
  induction ds with
  | nil => intro results log _; simp [scanDeploymentsLoop]
  | cons d rest ih =>
    intro results log h
    cases hp : policyError env s.regoScanner ctx f d with
    | some e =>
      have hd := scanDeployment_fail env s ctx d f log (Or.inr hrego) e hp
      simp [scanDeploymentsLoop, hd] at h
    | none =>
      have hd := scanDeployment_ok env s ctx d f log (Or.inr hrego) hp
      simp only [scanDeploymentsLoop, hd] at h ⊢
      rw [ih _ _ h]
      simp [structuralFindings, hrego]

/-- C3. In rego-only mode the rule catalog is never touched: `ScanFS` returns
the same results and error, leaves the same scanner and performs the same
events whatever the catalog is, the empty catalog included; the call adds no
query of the catalog, no poll of the rule loop and no `Evaluate` call to the
log, so that nothing a rule would do when evaluated, a crash included, can
happen; and when the call returns a nil error, its results are the policy
findings of the deployments, concatenated in parser order. -/
theorem ScanFS_regoOnly_ignores_catalog {T : Types} (env : Env T) (s : Scanner T)
    (ctx : Context) (fsys : T.FS) (dir : String) (log : List (Event T))
    (hrego : s.regoOnly = true) :
    (∀ catalog : List Framework → List (Rule T),
      ScanFS (env.withCatalog catalog) s ctx fsys dir log = ScanFS env s ctx fsys dir log) ∧
    ScanFS (env.withCatalog (fun _ => [])) s ctx fsys dir log = ScanFS env s ctx fsys dir log ∧
    (ScanFS env s ctx fsys dir log).1.log.filter Event.isStructural =
      log.filter Event.isStructural ∧
    ((ScanFS env s ctx fsys dir log).1.err = none →
      (ScanFS env s ctx fsys dir log).1.results =
        (env.ParseFS fsys ctx dir).1.flatMap
          (policyFindings env (ScanFS env s ctx fsys dir log).2.regoScanner ctx fsys)) := by
  have hcat : ∀ catalog : List Framework → List (Rule T),
      ScanFS (env.withCatalog catalog) s ctx fsys dir log = ScanFS env s ctx fsys dir log := by
    intro catalog
    have hinit : ∀ l, initRegoScanner (env.withCatalog catalog) s fsys l =
        initRegoScanner env s fsys l := fun l => rfl
    have hparse : (env.withCatalog catalog).ParseFS fsys ctx dir = env.ParseFS fsys ctx dir :=
      rfl
    obtain ⟨_, _, hc, _⟩ := initRegoScanner_config env s fsys (log ++ [Event.parseFS fsys dir])
    rcases hp : env.ParseFS fsys ctx dir with ⟨ds, _ | e⟩
    · rcases hi : initRegoScanner env s fsys (log ++ [Event.parseFS fsys dir]) with
        ⟨_ | e, s1, log1⟩
      · rw [hi] at hc
        simp only [ScanFS, hparse, hinit, hp, hi, scanDeployments]
        rw [scanDeploymentsLoop_congr env (env.withCatalog catalog) s1 ctx fsys
          (scanDeployment_regoOnly_catalog env s1 ctx fsys (hc.trans hrego) catalog)]
      · simp [ScanFS, hparse, hinit, hp, hi]
    · simp [ScanFS, hparse, hp]
  refine ⟨hcat, hcat _, ?_, ?_⟩
  · obtain ⟨_, _, hc, _⟩ := initRegoScanner_config env s fsys (log ++ [Event.parseFS fsys dir])
    have hlog := initRegoScanner_log env s fsys (log ++ [Event.parseFS fsys dir])
    rcases hp : env.ParseFS fsys ctx dir with ⟨ds, _ | e⟩
    · rcases hi : initRegoScanner env s fsys (log ++ [Event.parseFS fsys dir]) with
        ⟨_ | e, s1, log1⟩
      · rw [hi] at hc hlog
        simp only [ScanFS, hp, hi, scanDeployments]
        rw [scanDeploymentsLoop_regoOnly_log env s1 ctx fsys (hc.trans hrego)]
        simp only at hlog
        rw [hlog]
        cases s.regoScanner <;> simp [Event.isStructural]
      · rw [hi] at hlog
        simp only [ScanFS, hp, hi]
        simp only at hlog
        rw [hlog]
        cases s.regoScanner <;> simp [Event.isStructural]
    · simp [ScanFS, hp, Event.isStructural]
  · obtain ⟨_, _, hc, _⟩ := initRegoScanner_config env s fsys (log ++ [Event.parseFS fsys dir])
    rcases hp : env.ParseFS fsys ctx dir with ⟨ds, _ | e⟩
    · rcases hi : initRegoScanner env s fsys (log ++ [Event.parseFS fsys dir]) with
        ⟨_ | e, s1, log1⟩
      · rw [hi] at hc
        simp only [ScanFS, hp, hi, scanDeployments]
        intro h
        rw [scanDeploymentsLoop_regoOnly_results env s1 ctx fsys (hc.trans hrego) ds [] log1 h]
        simp
      · simp [ScanFS, hp, hi]
    · simp [ScanFS, hp]

theorem ScanFS_regoOnly_ignores_catalog_witness :
    ScanFS (demoEnv ["a.json", "b.json"] [ruleR1 false, ruleR2 false] (fun p => ["P:" ++ p]))
        (New DemoT [ScannerWithRegoOnly true]) background "fs" "." [] =
      ScanFS (demoEnv ["a.json", "b.json"] [] (fun p => ["P:" ++ p]))
        (New DemoT [ScannerWithRegoOnly true]) background "fs" "." [] ∧
    (ScanFS (demoEnv ["a.json", "b.json"] [ruleR1 false, ruleR2 false] (fun p => ["P:" ++ p]))
        (New DemoT [ScannerWithRegoOnly true]) background "fs" "." []).1.results =
      ["P:a.json", "P:b.json"] :=
  ⟨((ScanFS_regoOnly_ignores_catalog
      (demoEnv ["a.json", "b.json"] [ruleR1 false, ruleR2 false] (fun p => ["P:" ++ p]))
      (New DemoT [ScannerWithRegoOnly true]) background "fs" "." [] rfl).1 (fun _ => [])).symm,
    rfl⟩

/-! ## C4: deprecated rules -/

theorem scanDeploymentsLoop_sim {T : Types} (env env1 : Env T) (s : Scanner T)
    (ctx : Context) (f : T.FS)
    (h : ∀ d l l1,
      (scanDeployment env1 s ctx d f l1).results = (scanDeployment env s ctx d f l).results ∧
      (scanDeployment env1 s ctx d f l1).err = (scanDeployment env s ctx d f l).err)
    (ds : List T.Deployment) :
    ∀ (results : List T.Result) (l l1 : List (Event T)),
      (scanDeploymentsLoop env1 s ctx f ds results l1).results =
        (scanDeploymentsLoop env s ctx f ds results l).results ∧
      (scanDeploymentsLoop env1 s ctx f ds results l1).err =
        (scanDeploymentsLoop env s ctx f ds results l).err := by
  induction ds with
  | nil => intro results l l1; simp [scanDeploymentsLoop]
  | cons d rest ih =>
    intro results l l1
    obtain ⟨hr, he⟩ := h d l l1
    simp only [scanDeploymentsLoop, hr, he]
    cases (scanDeployment env s ctx d f l).err with
    | some err => simp
    | none => exact ih _ _ _

theorem scanDeploymentsLoop_err_none {T : Types} (env : Env T) (s : Scanner T) (ctx : Context)
    (f : T.FS) (h : ctx.cancelAt = none ∨ s.regoOnly = true) (ds : List T.Deployment) :
    ∀ (results : List T.Result) (log : List (Event T)),
      (scanDeploymentsLoop env s ctx f ds results log).err = none →
        ∀ d ∈ ds, policyError env s.regoScanner ctx f d = none := by
  induction ds with
  | nil => intro results log _ d hd; simp at hd
  | cons d rest ih =>
    intro results log hnone
    cases hp : policyError env s.regoScanner ctx f d with
    | some e =>
      have hd := scanDeployment_fail env s ctx d f log h e hp
      simp [scanDeploymentsLoop, hd] at hnone
    | none =>
      have hd := scanDeployment_ok env s ctx d f log h hp
      simp only [scanDeploymentsLoop, hd] at hnone
      intro d1 hd1
      rcases List.mem_cons.mp hd1 with rfl | hmem
      · exact hp
      · exact ih _ _ hnone d1 hmem

theorem ScanFS_uncancelled_success {T : Types} (env : Env T) (s : Scanner T) (ctx : Context)
    (fsys : T.FS) (dir : String) (log : List (Event T))
    (h : ctx.cancelAt = none ∨ s.regoOnly = true)
    (hnone : (ScanFS env s ctx fsys dir log).1.err = none) :
    (ScanFS env s ctx fsys dir log).1.results =
      (env.ParseFS fsys ctx dir).1.flatMap (fun d =>
        structuralFindings env s ctx d ++
          policyFindings env (ScanFS env s ctx fsys dir log).2.regoScanner ctx fsys d) ∧
    (ScanFS env s ctx fsys dir log).1.log =
      log ++ Event.parseFS fsys dir ::
        ((if s.regoScanner.isSome then [] else [Event.loadPolicies fsys]) ++
          (env.ParseFS fsys ctx dir).1.flatMap (deploymentEvents env s ctx fsys)) := by
  obtain ⟨_, hc1, hc2, hc3⟩ :=
    initRegoScanner_config env s fsys (log ++ [Event.parseFS fsys dir])
  have hlog := initRegoScanner_log env s fsys (log ++ [Event.parseFS fsys dir])
  rcases hp : env.ParseFS fsys ctx dir with ⟨ds, _ | e⟩
  · rcases hi : initRegoScanner env s fsys (log ++ [Event.parseFS fsys dir]) with
      ⟨_ | e, s1, log1⟩
    · rw [hi] at hc1 hc2 hc3 hlog
      simp only at hc1 hc2 hc3 hlog
      have h1 : ctx.cancelAt = none ∨ s1.regoOnly = true := by
        rcases h with h | h
        · exact Or.inl h
        · exact Or.inr (hc2.trans h)
      simp only [ScanFS, hp, hi, scanDeployments] at hnone ⊢
      have hok := scanDeploymentsLoop_err_none env s1 ctx fsys h1 ds [] log1 hnone
      rw [scanDeploymentsLoop_ok env s1 ctx fsys h1 ds hok]
      have hev : s1.evaluates = s.evaluates := by
        funext rule; simp [Scanner.evaluates, hc3]
      have hde : deploymentEvents env s1 ctx fsys = deploymentEvents env s ctx fsys := by
        funext d; simp [deploymentEvents, hc1, hc2, ruleEvents, hev]
      have hsf : ∀ d, structuralFindings env s1 ctx d = structuralFindings env s ctx d :=
        fun d => structuralFindings_congr env s s1 ctx d hc1 hc2 hc3
      simp only [List.nil_append, hsf, hde, hlog, List.append_assoc, List.singleton_append]
      exact ⟨trivial, by simp⟩
    · simp [ScanFS, hp, hi] at hnone
  · simp [ScanFS, hp] at hnone

theorem ruleEvents_evaluateOf {T : Types} (s : Scanner T) (st : T.State)
    (rules : List (Rule T)) :
    (ruleEvents s st rules).filterMap Event.evaluateOf =
      (rules.filter s.evaluates).map (fun rule => (rule.Number, st)) := by
  induction rules with
  | nil => simp [ruleEvents]
  | cons rule rest ih =>
    simp only [ruleEvents, List.flatMap_cons, List.filterMap_append] at ih ⊢
    rw [ih]
    cases he : s.evaluates rule <;> simp [Event.evaluateOf, List.filter_cons, he]

theorem deploymentEvents_evaluateOf {T : Types} (env : Env T) (s : Scanner T) (ctx : Context)
    (fsys : T.FS) (hrego : s.regoOnly = false) (ds : List T.Deployment) :
    (ds.flatMap (deploymentEvents env s ctx fsys)).filterMap Event.evaluateOf =
      ds.flatMap (fun d =>
        ((env.GetRegistered s.frameworks).filter s.evaluates).map
          (fun rule => (rule.Number, env.Adapt ctx d))) := by
  induction ds with
  | nil => simp
  | cons d rest ih =>
    simp only [List.flatMap_cons, List.filterMap_append, ih]
    simp [deploymentEvents, hrego, Event.evaluateOf, List.filterMap_append,
      ruleEvents_evaluateOf]

theorem scanDeployment_withoutDeprecated {T : Types} (env : Env T) (s : Scanner T)
    (ctx : Context) (fsys : T.FS) (hctx : ctx.cancelAt = none)
    (hinc : s.includeDeprecatedChecks = false) (d : T.Deployment) (l l1 : List (Event T)) :
    (scanDeployment (env.withCatalog (withoutDeprecated env.GetRegistered)) s ctx d fsys l1).results
      = (scanDeployment env s ctx d fsys l).results ∧
    (scanDeployment (env.withCatalog (withoutDeprecated env.GetRegistered)) s ctx d fsys l1).err
      = (scanDeployment env s ctx d fsys l).err := by
  have hsf : structuralFindings (env.withCatalog (withoutDeprecated env.GetRegistered)) s ctx d =
      structuralFindings env s ctx d := by
    have he : s.evaluates = fun rule => !rule.Deprecated := by
      funext rule; simp [Scanner.evaluates, hinc]
    simp [structuralFindings, Env.withCatalog, withoutDeprecated, he, List.filter_filter]
  have hin : regoInput (env.withCatalog (withoutDeprecated env.GetRegistered)) ctx fsys d =
      regoInput env ctx fsys d := rfl
  have hsi : (env.withCatalog (withoutDeprecated env.GetRegistered)).ScanInput =
      env.ScanInput := rfl
  rw [scanDeployment_uncancelled _ s ctx d fsys l1 (Or.inl hctx),
    scanDeployment_uncancelled env s ctx d fsys l (Or.inl hctx), hsf, hin, hsi]
  rcases env.ScanInput s.regoScanner ctx (regoInput env ctx fsys d) with ⟨rs, _ | e⟩ <;> simp

theorem evalRules_undeprecated {T : Types} (s : Scanner T) (ctx : Context) (st : T.State)
    (hinc : s.includeDeprecatedChecks = true) (rules : List (Rule T)) :
    ∀ (results : List T.Result) (log : List (Event T)),
      evalRules s ctx st (rules.map (fun rule => { rule with Deprecated := false })) results log =
        evalRules s ctx st rules results log := by
  induction rules with
  | nil => intro results log; rfl
  | cons rule rest ih =>
    intro results log
    simp only [List.map_cons, evalRules, hinc, ih]
    simp

theorem scanDeployment_undeprecated {T : Types} (env : Env T) (s : Scanner T)
    (ctx : Context) (fsys : T.FS) (hinc : s.includeDeprecatedChecks = true)
    (d : T.Deployment) (log : List (Event T)) :
    scanDeployment (env.withCatalog (undeprecated env.GetRegistered)) s ctx d fsys log =
      scanDeployment env s ctx d fsys log := by
  simp only [scanDeployment_eq, Env.withCatalog, undeprecated, regoInput,
    evalRules_undeprecated s ctx _ hinc]

/-- C4, refuted as stated. Deprecated checks are excluded, the only rule of
the catalog is deprecated, and the context is cancelled once parsing and policy
loading are over. `ScanFS` returns the cancellation error and no results,
whereas with the deprecated rule removed from the catalog it returns the policy
finding and a nil error: the cancellation check is made for every rule,
deprecated or not, before the deprecation test. The errors differ even when the
policy engine has no finding. -/
theorem ScanFS_deprecated_removed_counterexample :
    (New DemoT []).regoOnly = false ∧
    (New DemoT []).includeDeprecatedChecks = false ∧
    (ScanFS (demoEnv ["a.json"] [ruleR1 true] (fun p => ["P:" ++ p]))
        (New DemoT []) cancelledAfterLoad "fs" "." []).1.results = [] ∧
    (ScanFS (demoEnv ["a.json"] [ruleR1 true] (fun p => ["P:" ++ p]))
        (New DemoT []) cancelledAfterLoad "fs" "." []).1.err =
      some (GoError.leaf "context canceled") ∧
    (ScanFS ((demoEnv ["a.json"] [ruleR1 true] (fun p => ["P:" ++ p])).withCatalog
          (withoutDeprecated (demoEnv ["a.json"] [ruleR1 true] (fun p => ["P:" ++ p])).GetRegistered))
        (New DemoT []) cancelledAfterLoad "fs" "." []).1.results = ["P:a.json"] ∧
    (ScanFS ((demoEnv ["a.json"] [ruleR1 true] (fun p => ["P:" ++ p])).withCatalog
          (withoutDeprecated (demoEnv ["a.json"] [ruleR1 true] (fun p => ["P:" ++ p])).GetRegistered))
        (New DemoT []) cancelledAfterLoad "fs" "." []).1.err = none ∧
    (ScanFS (demoEnv ["a.json"] [ruleR1 true] (fun p => ["P:" ++ p]))
        (New DemoT []) cancelledAfterLoad "fs" "." []).1.results ≠
      (ScanFS ((demoEnv ["a.json"] [ruleR1 true] (fun p => ["P:" ++ p])).withCatalog
          (withoutDeprecated (demoEnv ["a.json"] [ruleR1 true] (fun p => ["P:" ++ p])).GetRegistered))
        (New DemoT []) cancelledAfterLoad "fs" "." []).1.results ∧
    (ScanFS (demoEnv ["a.json"] [ruleR1 true] (fun _ => []))
        (New DemoT []) cancelledAfterLoad "fs" "." []).1.err ≠
      (ScanFS ((demoEnv ["a.json"] [ruleR1 true] (fun _ => [])).withCatalog
          (withoutDeprecated (demoEnv ["a.json"] [ruleR1 true] (fun _ => [])).GetRegistered))
        (New DemoT []) cancelledAfterLoad "fs" "." []).1.err := by
  refine ⟨rfl, rfl, rfl, rfl, rfl, rfl, ?_, ?_⟩ <;> decide

/-- C4, amended. In a scan that is not rego-only and whose context is never
cancelled: when `ScanFS` returns a nil error, the rules evaluated for each
deployment are those `GetRegistered` returns that are not deprecated, or all of
them when deprecated checks are included, in catalog order, and the results are
their findings followed by the policy findings; with deprecated checks excluded,
`ScanFS` returns the same results and error and leaves the same scanner as with
every deprecated rule removed from the catalog, and a catalog of deprecated
rules only gives no structural finding; with deprecated checks included,
`ScanFS` behaves as if no rule were marked deprecated. -/
theorem ScanFS_deprecated_rules {T : Types} (env : Env T) (s : Scanner T) (ctx : Context)
    (fsys : T.FS) (dir : String) (log : List (Event T))
    (hrego : s.regoOnly = false) (hctx : ctx.cancelAt = none) :
    ((ScanFS env s ctx fsys dir log).1.err = none →
      ((ScanFS env s ctx fsys dir log).1.log.drop log.length).filterMap Event.evaluateOf =
        (env.ParseFS fsys ctx dir).1.flatMap (fun d =>
          ((env.GetRegistered s.frameworks).filter
              (fun rule => s.includeDeprecatedChecks || !rule.Deprecated)).map
            (fun rule => (rule.Number, env.Adapt ctx d))) ∧
      (ScanFS env s ctx fsys dir log).1.results =
        (env.ParseFS fsys ctx dir).1.flatMap (fun d =>
          ((env.GetRegistered s.frameworks).filter
              (fun rule => s.includeDeprecatedChecks || !rule.Deprecated)).flatMap
            (fun rule => rule.Evaluate (env.Adapt ctx d)) ++
          policyFindings env (ScanFS env s ctx fsys dir log).2.regoScanner ctx fsys d)) ∧
    (s.includeDeprecatedChecks = false →
      (ScanFS (env.withCatalog (withoutDeprecated env.GetRegistered)) s ctx fsys dir log).1.results
        = (ScanFS env s ctx fsys dir log).1.results ∧
      (ScanFS (env.withCatalog (withoutDeprecated env.GetRegistered)) s ctx fsys dir log).1.err
        = (ScanFS env s ctx fsys dir log).1.err ∧
      (ScanFS (env.withCatalog (withoutDeprecated env.GetRegistered)) s ctx fsys dir log).2
        = (ScanFS env s ctx fsys dir log).2 ∧
      ((∀ rule ∈ env.GetRegistered s.frameworks, rule.Deprecated = true) →
        ∀ d, structuralFindings env s ctx d = [])) ∧
    (s.includeDeprecatedChecks = true →
      ScanFS (env.withCatalog (undeprecated env.GetRegistered)) s ctx fsys dir log =
        ScanFS env s ctx fsys dir log) := by
  obtain ⟨_, _, _, hc3⟩ := initRegoScanner_config env s fsys (log ++ [Event.parseFS fsys dir])
  refine ⟨?_, ?_, ?_⟩
  · intro hnone
    obtain ⟨hres, hlog⟩ := ScanFS_uncancelled_success env s ctx fsys dir log (Or.inl hctx) hnone
    constructor
    · rw [hlog, List.drop_left]
      simp only [List.filterMap_cons, List.filterMap_append,
        deploymentEvents_evaluateOf env s ctx fsys hrego]
      cases s.regoScanner <;> simp [Event.evaluateOf] <;> rfl
    · rw [hres]
      simp only [structuralFindings, hrego]
      rfl
  · intro hinc
    refine ⟨?_, ?_, ?_, ?_⟩
    · rcases hp : env.ParseFS fsys ctx dir with ⟨ds, _ | e⟩
      · rcases hi : initRegoScanner env s fsys (log ++ [Event.parseFS fsys dir]) with
          ⟨_ | e, s1, log1⟩
        · have hp1 : (env.withCatalog (withoutDeprecated env.GetRegistered)).ParseFS fsys ctx dir
              = (ds, none) := hp
          have hi1 : initRegoScanner (env.withCatalog (withoutDeprecated env.GetRegistered)) s
              fsys (log ++ [Event.parseFS fsys dir]) = (none, s1, log1) := hi
          rw [hi] at hc3
          simp only [ScanFS, hp, hi, hp1, hi1, scanDeployments]
          exact (scanDeploymentsLoop_sim env _ s1 ctx fsys
            (fun d l l1 => scanDeployment_withoutDeprecated env s1 ctx fsys hctx
              (hc3.trans hinc) d l l1) ds [] log1 log1).1
        · have hp1 : (env.withCatalog (withoutDeprecated env.GetRegistered)).ParseFS fsys ctx dir
              = (ds, none) := hp
          have hi1 : initRegoScanner (env.withCatalog (withoutDeprecated env.GetRegistered)) s
              fsys (log ++ [Event.parseFS fsys dir]) = (some e, s1, log1) := hi
          simp only [ScanFS, hp, hi, hp1, hi1]
      · have hp1 : (env.withCatalog (withoutDeprecated env.GetRegistered)).ParseFS fsys ctx dir
            = (ds, some e) := hp
        simp only [ScanFS, hp, hp1]
    · rcases hp : env.ParseFS fsys ctx dir with ⟨ds, _ | e⟩
      · rcases hi : initRegoScanner env s fsys (log ++ [Event.parseFS fsys dir]) with
          ⟨_ | e, s1, log1⟩
        · have hp1 : (env.withCatalog (withoutDeprecated env.GetRegistered)).ParseFS fsys ctx dir
              = (ds, none) := hp
          have hi1 : initRegoScanner (env.withCatalog (withoutDeprecated env.GetRegistered)) s
              fsys (log ++ [Event.parseFS fsys dir]) = (none, s1, log1) := hi
          rw [hi] at hc3
          simp only [ScanFS, hp, hi, hp1, hi1, scanDeployments]
          exact (scanDeploymentsLoop_sim env _ s1 ctx fsys
            (fun d l l1 => scanDeployment_withoutDeprecated env s1 ctx fsys hctx
              (hc3.trans hinc) d l l1) ds [] log1 log1).2
        · have hp1 : (env.withCatalog (withoutDeprecated env.GetRegistered)).ParseFS fsys ctx dir
              = (ds, none) := hp
          have hi1 : initRegoScanner (env.withCatalog (withoutDeprecated env.GetRegistered)) s
              fsys (log ++ [Event.parseFS fsys dir]) = (some e, s1, log1) := hi
          simp only [ScanFS, hp, hi, hp1, hi1]
      · have hp1 : (env.withCatalog (withoutDeprecated env.GetRegistered)).ParseFS fsys ctx dir
            = (ds, some e) := hp
        simp only [ScanFS, hp, hp1]
    · rcases hp : env.ParseFS fsys ctx dir with ⟨ds, _ | e⟩
      · rcases hi : initRegoScanner env s fsys (log ++ [Event.parseFS fsys dir]) with
          ⟨_ | e, s1, log1⟩ <;>
        · have hp1 : (env.withCatalog (withoutDeprecated env.GetRegistered)).ParseFS fsys ctx dir
              = (ds, none) := hp
          have hi1 : initRegoScanner (env.withCatalog (withoutDeprecated env.GetRegistered)) s
              fsys (log ++ [Event.parseFS fsys dir]) = _ := hi
          simp only [ScanFS, hp, hi, hp1, hi1]
      · have hp1 : (env.withCatalog (withoutDeprecated env.GetRegistered)).ParseFS fsys ctx dir
            = (ds, some e) := hp
        simp only [ScanFS, hp, hp1]
    · intro hall d
      have : (env.GetRegistered s.frameworks).filter s.evaluates = [] := by
        rw [List.filter_eq_nil_iff]
        intro rule hr
        simp [Scanner.evaluates, hinc, hall rule hr]
      simp [structuralFindings, this]
  · intro hinc
    have hp1 : (env.withCatalog (undeprecated env.GetRegistered)).ParseFS fsys ctx dir
        = env.ParseFS fsys ctx dir := rfl
    have hi1 : initRegoScanner (env.withCatalog (undeprecated env.GetRegistered)) s
        fsys (log ++ [Event.parseFS fsys dir]) =
          initRegoScanner env s fsys (log ++ [Event.parseFS fsys dir]) := rfl
    rcases hp : env.ParseFS fsys ctx dir with ⟨ds, _ | e⟩
    · rcases hi : initRegoScanner env s fsys (log ++ [Event.parseFS fsys dir]) with
        ⟨_ | e, s1, log1⟩
      · rw [hi] at hc3
        simp only [ScanFS, hp, hi, hp1, hi1, scanDeployments]
        rw [scanDeploymentsLoop_congr env _ s1 ctx fsys
          (scanDeployment_undeprecated env s1 ctx fsys (hc3.trans hinc))]
      · simp only [ScanFS, hp, hi, hp1, hi1]
    · simp only [ScanFS, hp, hp1]

theorem ScanFS_deprecated_rules_witness :
    (New DemoT []).regoOnly = false ∧ background.cancelAt = none ∧
    ((New DemoT []).includeDeprecatedChecks = false →
      (ScanFS ((demoEnv ["a.json", "b.json"] [ruleR1 false, ruleR2 true]
            (fun p => ["P:" ++ p])).withCatalog
          (withoutDeprecated (demoEnv ["a.json", "b.json"] [ruleR1 false, ruleR2 true]
            (fun p => ["P:" ++ p])).GetRegistered))
        (New DemoT []) background "fs" "." []).1.results =
      (ScanFS (demoEnv ["a.json", "b.json"] [ruleR1 false, ruleR2 true] (fun p => ["P:" ++ p]))
        (New DemoT []) background "fs" "." []).1.results) :=
  ⟨rfl, rfl, fun h => ((ScanFS_deprecated_rules
      (demoEnv ["a.json", "b.json"] [ruleR1 false, ruleR2 true] (fun p => ["P:" ++ p]))
      (New DemoT []) background "fs" "." [] rfl rfl).2.1 h).1⟩

/-! ## C5: a context cancelled before the scan of the deployments -/

/-- C5, refuted as stated. The context is cancelled once parsing and policy
loading, which succeed, are over, and there is one deployment. In rego-only
mode, and likewise with an empty catalog, `ScanFS` returns a nil error, with the
policy finding, or with no results when the policy engine has no finding: the
context is only polled inside the loop over the rules. -/
theorem ScanFS_cancelled_counterexample :
    cancelledAfterLoad.Done 1 = false ∧
    (demoEnv ["a.json"] [ruleR1 false] (fun p => ["P:" ++ p])).ParseFS "fs"
        cancelledAfterLoad "." = (["a.json"], none) ∧
    (initRegoScanner (demoEnv ["a.json"] [ruleR1 false] (fun p => ["P:" ++ p]))
        (New DemoT [ScannerWithRegoOnly true]) "fs" [Event.parseFS "fs" "."]).1 = none ∧
    cancelledAfterLoad.Done
      (initRegoScanner (demoEnv ["a.json"] [ruleR1 false] (fun p => ["P:" ++ p]))
        (New DemoT [ScannerWithRegoOnly true]) "fs" [Event.parseFS "fs" "."]).2.2.length
      = true ∧
    (ScanFS (demoEnv ["a.json"] [ruleR1 false] (fun p => ["P:" ++ p]))
        (New DemoT [ScannerWithRegoOnly true]) cancelledAfterLoad "fs" "." []).1.err = none ∧
    (ScanFS (demoEnv ["a.json"] [ruleR1 false] (fun p => ["P:" ++ p]))
        (New DemoT [ScannerWithRegoOnly true]) cancelledAfterLoad "fs" "." []).1.results =
      ["P:a.json"] ∧
    (ScanFS (demoEnv ["a.json"] [ruleR1 false] (fun _ => []))
        (New DemoT [ScannerWithRegoOnly true]) cancelledAfterLoad "fs" "." []).1.err = none ∧
    (ScanFS (demoEnv ["a.json"] [] (fun p => ["P:" ++ p]))
        (New DemoT []) cancelledAfterLoad "fs" "." []).1.err = none ∧
    (ScanFS (demoEnv ["a.json"] [] (fun p => ["P:" ++ p]))
        (New DemoT []) cancelledAfterLoad "fs" "." []).1.results = ["P:a.json"] ∧
    (ScanFS (demoEnv ["a.json"] [] (fun _ => []))
        (New DemoT []) cancelledAfterLoad "fs" "." []).1.err = none :=
  ⟨rfl, rfl, rfl, rfl, rfl, rfl, rfl, rfl, rfl, rfl⟩

/-- C5, amended. In a scan that is not rego-only and for which `GetRegistered`
returns at least one rule, deprecated or not, if parsing and policy loading
succeed, there is at least one deployment and the context is cancelled by the
time loading is over, then `ScanFS` returns nil results and the context's error
as it is; the first deployment is adapted, the catalog queried and the context
polled once, and nothing else happens: no rule is evaluated and `ScanInput` is
not called. -/
theorem ScanFS_cancelled_before_rules {T : Types} (env : Env T) (s : Scanner T)
    (ctx : Context) (fsys : T.FS) (dir : String) (log : List (Event T))
    (d : T.Deployment) (rest : List T.Deployment) (c : Nat)
    (hrego : s.regoOnly = false)
    (hcat : env.GetRegistered s.frameworks ≠ [])
    (hparse : env.ParseFS fsys ctx dir = (d :: rest, none))
    (hload : (initRegoScanner env s fsys (log ++ [Event.parseFS fsys dir])).1 = none)
    (hc : ctx.cancelAt = some c)
    (hle : c ≤ (initRegoScanner env s fsys (log ++ [Event.parseFS fsys dir])).2.2.length) :
    (ScanFS env s ctx fsys dir log).1.results = [] ∧
    (ScanFS env s ctx fsys dir log).1.err = some ctx.cause ∧
    (ScanFS env s ctx fsys dir log).1.log =
      (initRegoScanner env s fsys (log ++ [Event.parseFS fsys dir])).2.2 ++
        [Event.adapt d, Event.getRegistered s.frameworks, Event.ctxDone true] := by
  obtain ⟨_, hc1, hc2, _⟩ := initRegoScanner_config env s fsys (log ++ [Event.parseFS fsys dir])
  have hp : (env.ParseFS fsys ctx dir).2 = none := by rw [hparse]
  rw [ScanFS_init_ok env s ctx fsys dir log hp hload, hparse]
  rcases hi : initRegoScanner env s fsys (log ++ [Event.parseFS fsys dir]) with ⟨e, s1, log1⟩
  rw [hi] at hc1 hc2 hle
  simp only at hc1 hc2 hle
  obtain ⟨rule, rules, hrules⟩ := List.exists_cons_of_ne_nil hcat
  have hdone : ctx.Done (log1 ++ [Event.adapt d] ++ [Event.getRegistered s.frameworks]).length
      = true := by
    apply Context.Done_from hc
    simp only [List.length_append, List.length_singleton]
    omega
  have hsd : scanDeployment env s1 ctx d fsys log1 =
      ⟨[], some ctx.cause,
        log1 ++ [Event.adapt d, Event.getRegistered s.frameworks, Event.ctxDone true]⟩ := by
    simp only [scanDeployment_eq, hc2, hrego, hc1, hrules, Bool.not_false, if_true]
    rw [evalRules_cancelled s1 ctx _ rule rules [] _ hdone]
    simp
  simp only [scanDeployments, scanDeploymentsLoop, hsd]
  exact ⟨trivial, trivial, trivial⟩

theorem ScanFS_cancelled_before_rules_witness :
    (ScanFS (demoEnv ["a.json", "b.json"] [ruleR1 true] (fun p => ["P:" ++ p]))
        (New DemoT []) cancelledAfterLoad "fs" "." []).1.results = [] ∧
    (ScanFS (demoEnv ["a.json", "b.json"] [ruleR1 true] (fun p => ["P:" ++ p]))
        (New DemoT []) cancelledAfterLoad "fs" "." []).1.err = some cancelledAfterLoad.cause :=
  ⟨(ScanFS_cancelled_before_rules
      (demoEnv ["a.json", "b.json"] [ruleR1 true] (fun p => ["P:" ++ p]))
      (New DemoT []) cancelledAfterLoad "fs" "." [] "a.json" ["b.json"] 2 rfl
      (List.cons_ne_nil _ _) rfl rfl rfl (Nat.le_refl 2)).1,
   (ScanFS_cancelled_before_rules
      (demoEnv ["a.json", "b.json"] [ruleR1 true] (fun p => ["P:" ++ p]))
      (New DemoT []) cancelledAfterLoad "fs" "." [] "a.json" ["b.json"] 2 rfl
      (List.cons_ne_nil _ _) rfl rfl rfl (Nat.le_refl 2)).2.1⟩

/-! ## C6: the policy bundle is loaded once -/

theorem initCalls_loaded {T : Types} (env : Env T) (h : T.RegoScanner)
    (srcs : List T.FS) :
    ∀ (s : Scanner T) (log : List (Event T)), s.regoScanner = some h →
      initCalls env s srcs log = (List.replicate srcs.length none, s, log) := by
  induction srcs with
  | nil => intro s log _; rfl
  | cons srcFS rest ih =>
    intro s log hs
    simp only [initCalls, initRegoScanner_loaded env s srcFS log h hs, ih s log hs,
      List.length_cons, List.replicate_succ]

/-- C6. On a fresh scanner, for a sequence of one or more `initRegoScanner`
calls run one after the other, of which the load of the first succeeds, every
call returns a nil error, exactly one `LoadPolicies` call is made, namely by
the first call, and the scanner ends with the interpreter that call loaded.
Once an interpreter is cached, a call with any filesystem returns nil, makes no
load and leaves the scanner, its interpreter included, as it was. -/
theorem initRegoScanner_loads_once {T : Types} (env : Env T) (s : Scanner T) (srcFS : T.FS)
    (rest : List T.FS) (log : List (Event T)) (loaded : T.RegoScanner)
    (hfresh : s.regoScanner = none)
    (hload : env.LoadPolicies (env.NewScanner s.scannerOptions) srcFS = (loaded, none)) :
    (initCalls env s (srcFS :: rest) log).1 = List.replicate (rest.length + 1) none ∧
    (initCalls env s (srcFS :: rest) log).2.2 = log ++ [Event.loadPolicies srcFS] ∧
    (((initCalls env s (srcFS :: rest) log).2.2.drop log.length).filterMap
      Event.loadPoliciesOf).length = 1 ∧
    (initCalls env s (srcFS :: rest) log).2.1 = { s with regoScanner := some loaded } ∧
    (∀ (s1 : Scanner T) (h : T.RegoScanner) (anyFS : T.FS) (l : List (Event T)),
      s1.regoScanner = some h → initRegoScanner env s1 anyFS l = (none, s1, l)) := by
  have h1 := initRegoScanner_fresh_ok env s srcFS log loaded hfresh hload
  have h2 := initCalls_loaded env loaded rest { s with regoScanner := some loaded }
    (log ++ [Event.loadPolicies srcFS]) rfl
  have hcalls : initCalls env s (srcFS :: rest) log =
      (List.replicate (rest.length + 1) none, { s with regoScanner := some loaded },
        log ++ [Event.loadPolicies srcFS]) := by
    simp only [initCalls, h1, h2, List.replicate_succ]
  rw [hcalls]
  refine ⟨rfl, rfl, ?_, rfl, ?_⟩
  · simp [Event.loadPoliciesOf]
  · intro s1 h anyFS l hs
    exact initRegoScanner_loaded env s1 anyFS l h hs

theorem initRegoScanner_loads_once_witness :
    (initCalls (demoEnv [] [] (fun _ => [])) (New DemoT []) ["fs", "other", "fs"] []).1 =
      [none, none, none] ∧
    (initCalls (demoEnv [] [] (fun _ => [])) (New DemoT []) ["fs", "other", "fs"] []).2.2 =
      [] ++ [Event.loadPolicies "fs"] :=
  ⟨(initRegoScanner_loads_once (demoEnv [] [] (fun _ => [])) (New DemoT []) "fs"
      ["other", "fs"] [] "rego@fs" rfl rfl).1,
   (initRegoScanner_loads_once (demoEnv [] [] (fun _ => [])) (New DemoT []) "fs"
      ["other", "fs"] [] "rego@fs" rfl rfl).2.1⟩

/-! ## C7: a failed policy load can be retried -/

/-- C7, refuted as stated. A first `ScanFS` call fails in the policy load and
leaves the scanner without interpreter. In a second call on the same scanner
the load is made again and succeeds, and the interpreter is cached; the call
still returns an error, because `ScanInput` fails: a load that succeeds does
not make the call succeed. And a second call whose parsing fails makes no load
at all. -/
theorem ScanFS_retry_counterexample :
    (ScanFS (demoEnv ["fail.json"] [] (fun p => ["P:" ++ p]))
        (New DemoT []) background "broken" "." []).1.err = some (GoError.leaf "load error") ∧
    (ScanFS (demoEnv ["fail.json"] [] (fun p => ["P:" ++ p]))
        (New DemoT []) background "broken" "." []).2.regoScanner = none ∧
    (ScanFS (demoEnv ["fail.json"] [] (fun p => ["P:" ++ p]))
        (ScanFS (demoEnv ["fail.json"] [] (fun p => ["P:" ++ p]))
          (New DemoT []) background "broken" "." []).2
        background "fs" "." []).2.regoScanner = some "rego@fs" ∧
    (ScanFS (demoEnv ["fail.json"] [] (fun p => ["P:" ++ p]))
        (ScanFS (demoEnv ["fail.json"] [] (fun p => ["P:" ++ p]))
          (New DemoT []) background "broken" "." []).2
        background "fs" "." []).1.err =
      some (GoError.wrapf "rego scan error: " (GoError.leaf "eval error")) ∧
    (ScanFS (demoEnv ["fail.json"] [] (fun p => ["P:" ++ p]))
        (ScanFS (demoEnv ["fail.json"] [] (fun p => ["P:" ++ p]))
          (New DemoT []) background "broken" "." []).2
        background "fs" "." []).1.err ≠ none ∧
    ((ScanFS (demoEnv ["fail.json"] [] (fun p => ["P:" ++ p]))
        (ScanFS (demoEnv ["fail.json"] [] (fun p => ["P:" ++ p]))
          (New DemoT []) background "broken" "." []).2
        background "fs" "bad" []).1.log.filterMap Event.loadPoliciesOf) = [] := by
  refine ⟨rfl, rfl, rfl, rfl, ?_, rfl⟩
  decide

/-- C7, amended. When the policy load fails, `initRegoScanner` returns that
failure and leaves the scanner as it was, and `ScanFS` returns that error as it
is with nil results, leaving the scanner as it was, after the parser call and
the load and nothing else. In a later `ScanFS` call on the same scanner whose
parsing succeeds, the load is made again; if it succeeds, the interpreter is
cached and the call returns what the scan of the deployments returns, which is
a nil error when the context is never cancelled and every `ScanInput` call
succeeds. -/
theorem ScanFS_load_failure_retry {T : Types} (env : Env T) (s : Scanner T) (ctx : Context)
    (fsys : T.FS) (dir : String) (log : List (Event T)) (e : GoError)
    (hfresh : s.regoScanner = none)
    (hparse : (env.ParseFS fsys ctx dir).2 = none)
    (hload : (env.LoadPolicies (env.NewScanner s.scannerOptions) fsys).2 = some e) :
    (∀ l, initRegoScanner env s fsys l = (some e, s, l ++ [Event.loadPolicies fsys])) ∧
    ScanFS env s ctx fsys dir log =
      (⟨[], some e, log ++ [Event.parseFS fsys dir, Event.loadPolicies fsys]⟩, s) ∧
    (∀ (env2 : Env T) (ctx2 : Context) (fsys2 : T.FS) (dir2 : String) (log2 : List (Event T))
        (loaded : T.RegoScanner),
      (env2.ParseFS fsys2 ctx2 dir2).2 = none →
      env2.LoadPolicies (env2.NewScanner s.scannerOptions) fsys2 = (loaded, none) →
      ScanFS env2 (ScanFS env s ctx fsys dir log).2 ctx2 fsys2 dir2 log2 =
        (scanDeployments env2 { s with regoScanner := some loaded } ctx2
            (env2.ParseFS fsys2 ctx2 dir2).1 fsys2
            (log2 ++ [Event.parseFS fsys2 dir2, Event.loadPolicies fsys2]),
          { s with regoScanner := some loaded }) ∧
      (ctx2.cancelAt = none →
        (∀ d ∈ (env2.ParseFS fsys2 ctx2 dir2).1,
          policyError env2 (some loaded) ctx2 fsys2 d = none) →
        (ScanFS env2 (ScanFS env s ctx fsys dir log).2 ctx2 fsys2 dir2 log2).1.err = none)) := by
  have hinit : ∀ l, initRegoScanner env s fsys l = (some e, s, l ++ [Event.loadPolicies fsys]) :=
    fun l => initRegoScanner_fresh_fail env s fsys l e hfresh hload
  have hfirst : ScanFS env s ctx fsys dir log =
      (⟨[], some e, log ++ [Event.parseFS fsys dir, Event.loadPolicies fsys]⟩, s) := by
    rw [ScanFS_init_fail env s ctx fsys dir log e hparse (by rw [hinit]), hinit]
    simp
  refine ⟨hinit, hfirst, ?_⟩
  intro env2 ctx2 fsys2 dir2 log2 loaded hparse2 hload2
  rw [hfirst]
  have hinit2 := initRegoScanner_fresh_ok env2 s fsys2 (log2 ++ [Event.parseFS fsys2 dir2])
    loaded hfresh hload2
  have hsecond := ScanFS_init_ok env2 s ctx2 fsys2 dir2 log2 hparse2 (by rw [hinit2])
  rw [hinit2] at hsecond
  simp only [List.append_assoc, List.singleton_append] at hsecond
  refine ⟨hsecond, ?_⟩
  intro hctx hscan
  simp only [hsecond, scanDeployments]
  rw [scanDeploymentsLoop_ok env2 { s with regoScanner := some loaded } ctx2 fsys2
    (Or.inl hctx) _ hscan]

theorem ScanFS_load_failure_retry_witness :
    ScanFS (demoEnv ["a.json"] [ruleR1 false] (fun p => ["P:" ++ p]))
        (New DemoT []) background "broken" "." [] =
      (⟨[], some (GoError.leaf "load error"),
        [] ++ [Event.parseFS "broken" ".", Event.loadPolicies "broken"]⟩, New DemoT []) ∧
    (ScanFS (demoEnv ["a.json"] [ruleR1 false] (fun p => ["P:" ++ p]))
        (ScanFS (demoEnv ["a.json"] [ruleR1 false] (fun p => ["P:" ++ p]))
          (New DemoT []) background "broken" "." []).2
        background "fs" "." []).1.err = none :=
  ⟨(ScanFS_load_failure_retry (demoEnv ["a.json"] [ruleR1 false] (fun p => ["P:" ++ p]))
      (New DemoT []) background "broken" "." [] (GoError.leaf "load error") rfl rfl rfl).2.1,
   ((ScanFS_load_failure_retry (demoEnv ["a.json"] [ruleR1 false] (fun p => ["P:" ++ p]))
      (New DemoT []) background "broken" "." [] (GoError.leaf "load error") rfl rfl rfl).2.2
      (demoEnv ["a.json"] [ruleR1 false] (fun p => ["P:" ++ p])) background "fs" "." []
      "rego@fs" rfl rfl).2 rfl (by decide)⟩

/-! ## C8: an error of the policy engine -/

/-- C8, refuted as stated. `ScanInput` fails for the deployment of file
"fail.json"; the error `ScanFS` returns is the interpreter's error behind the
fixed words "rego scan error: ", and the file name occurs nowhere in its
message. -/
theorem ScanFS_rego_error_path_counterexample :
    (demoEnv ["fail.json"] [] (fun p => ["P:" ++ p])).GetFilename "fail.json" = "fail.json" ∧
    (ScanFS (demoEnv ["fail.json"] [] (fun p => ["P:" ++ p]))
        (New DemoT []) background "fs" "." []).1.err =
      some (GoError.wrapf "rego scan error: " (GoError.leaf "eval error")) ∧
    (GoError.wrapf "rego scan error: " (GoError.leaf "eval error")).Error =
      "rego scan error: eval error" ∧
    ¬ ("fail.json".data <:+:
        (GoError.wrapf "rego scan error: " (GoError.leaf "eval error")).Error.data) := by
  refine ⟨rfl, rfl, rfl, ?_⟩
  decide

theorem evalRules_returned_log {T : Types} (s : Scanner T) (ctx : Context) (st : T.State)
    (rules : List (Rule T)) :
    ∀ (results : List T.Result) (log : List (Event T)) (r : Ret T),
      evalRules s ctx st rules results log = LoopExit.returned r →
        r.log.getLast? = some (Event.ctxDone true) := by
  induction rules with
  | nil => intro results log r h; simp [evalRules] at h
  | cons rule rest ih =>
    intro results log r h
    cases hd : ctx.Done log.length
    · rw [evalRules_step s ctx st rule rest results log hd] at h
      exact ih _ _ r h
    · rw [evalRules_cancelled s ctx st rule rest results log hd] at h
      cases h
      exact List.getLast?_concat _

theorem scanDeployment_called_fail {T : Types} (env : Env T) (s : Scanner T) (ctx : Context)
    (d : T.Deployment) (fsys : T.FS) (log : List (Event T)) (e : GoError)
    (hfail : policyError env s.regoScanner ctx fsys d = some e)
    (hcall : (scanDeployment env s ctx d fsys log).log.getLast? =
      some (Event.scanInput (regoInput env ctx fsys d))) :
    (scanDeployment env s ctx d fsys log).results = [] ∧
    (scanDeployment env s ctx d fsys log).err = some (GoError.wrapf "rego scan error: " e) := by
  unfold policyError at hfail
  rw [scanDeployment_eq] at hcall ⊢
  split
  · next r heq =>
    rw [heq] at hcall
    simp only at hcall
    split at heq
    · rw [evalRules_returned_log s ctx _ _ _ _ r heq] at hcall
      cases hcall
    · cases heq
  · next results log1 heq =>
    split
    · next _ err hsi => rw [hsi] at hfail; simp at hfail; simp [hfail]
    · next rs hsi => rw [hsi] at hfail; simp at hfail

/-- C8, amended. When the deployments before `d` are scanned without error
and `ScanInput` is called for `d`, as the last step of the call, and returns
the error `e`, `ScanFS` returns nil results and the error
`fmt.Errorf("rego scan error: %w", e)`, whether or not the context is cancelled
by then. The message of that error is the fixed words followed by the message
of `e`, and unwrapping it gives `e`. The file name of `d` is handed to
`ScanInput` as the path of its input; it is not added to the error. -/
theorem ScanFS_rego_error_wrapped {T : Types} (env : Env T) (s : Scanner T) (ctx : Context)
    (fsys : T.FS) (dir : String) (log : List (Event T))
    (pre post : List T.Deployment) (d : T.Deployment) (e : GoError)
    (hparse : env.ParseFS fsys ctx dir = (pre ++ d :: post, none))
    (hload : (initRegoScanner env s fsys (log ++ [Event.parseFS fsys dir])).1 = none)
    (hpre :
      (scanDeployments env (initRegoScanner env s fsys (log ++ [Event.parseFS fsys dir])).2.1
        ctx pre fsys (initRegoScanner env s fsys (log ++ [Event.parseFS fsys dir])).2.2).err
        = none)
    (hcall : (ScanFS env s ctx fsys dir log).1.log.getLast? =
      some (Event.scanInput (regoInput env ctx fsys d)))
    (hfail :
      policyError env
        (initRegoScanner env s fsys (log ++ [Event.parseFS fsys dir])).2.1.regoScanner
        ctx fsys d = some e) :
    (ScanFS env s ctx fsys dir log).1.results = [] ∧
    (ScanFS env s ctx fsys dir log).1.err = some (GoError.wrapf "rego scan error: " e) ∧
    (GoError.wrapf "rego scan error: " e).Error = "rego scan error: " ++ e.Error ∧
    (GoError.wrapf "rego scan error: " e).Unwrap = some e ∧
    (regoInput env ctx fsys d).Path = env.GetFilename d := by
  have hp : (env.ParseFS fsys ctx dir).2 = none := by rw [hparse]
  rw [ScanFS_init_ok env s ctx fsys dir log hp hload, hparse] at hcall ⊢
  rcases hi : initRegoScanner env s fsys (log ++ [Event.parseFS fsys dir]) with ⟨e1, s1, log1⟩
  rw [hi] at hpre hfail hcall
  simp only [scanDeployments] at hpre hfail hcall ⊢
  obtain ⟨_, herr⟩ := scanDeployment_policy_fail env s1 ctx d fsys
    (scanDeploymentsLoop env s1 ctx fsys pre [] log1).log e hfail
  have hall : ∀ e1, (scanDeployment env s1 ctx d fsys
      (scanDeploymentsLoop env s1 ctx fsys pre [] log1).log).err = some e1 →
      scanDeploymentsLoop env s1 ctx fsys (pre ++ d :: post) [] log1 =
        ⟨[], some e1, (scanDeployment env s1 ctx d fsys
          (scanDeploymentsLoop env s1 ctx fsys pre [] log1).log).log⟩ :=
    fun e1 h => scanDeploymentsLoop_fail_at env s1 ctx fsys pre post d [] log1 e1 hpre h
  have hlog : (scanDeployment env s1 ctx d fsys
      (scanDeploymentsLoop env s1 ctx fsys pre [] log1).log).log.getLast? =
        some (Event.scanInput (regoInput env ctx fsys d)) := by
    rcases herr with h | h <;> (rw [hall _ h] at hcall; exact hcall)
  obtain ⟨_, hwrap⟩ := scanDeployment_called_fail env s1 ctx d fsys
    (scanDeploymentsLoop env s1 ctx fsys pre [] log1).log e hfail hlog
  rw [hall _ hwrap]
  exact ⟨rfl, rfl, rfl, rfl, rfl⟩

theorem ScanFS_rego_error_wrapped_witness :
    (ScanFS (ctxAwareEnv ["a.json"] []) (New DemoT []) cancelledAfterLoad "fs" "." []).1.results
      = [] ∧
    (ScanFS (ctxAwareEnv ["a.json"] []) (New DemoT []) cancelledAfterLoad "fs" "." []).1.err =
      some (GoError.wrapf "rego scan error: " (GoError.leaf "context canceled")) ∧
    (ScanFS (ctxAwareEnv ["a.json"] [ruleR1 false]) (New DemoT []) cancelledDuringRule
        "fs" "." []).1.err =
      some (GoError.wrapf "rego scan error: " (GoError.leaf "context canceled")) ∧
    (ScanFS (demoEnv ["a.json", "fail.json", "b.json"] [ruleR1 false] (fun p => ["P:" ++ p]))
        (New DemoT []) background "fs" "." []).1.err =
      some (GoError.wrapf "rego scan error: " (GoError.leaf "eval error")) :=
  ⟨(ScanFS_rego_error_wrapped (ctxAwareEnv ["a.json"] []) (New DemoT []) cancelledAfterLoad
      "fs" "." [] [] [] "a.json" (GoError.leaf "context canceled") rfl rfl rfl rfl rfl).1,
   (ScanFS_rego_error_wrapped (ctxAwareEnv ["a.json"] []) (New DemoT []) cancelledAfterLoad
      "fs" "." [] [] [] "a.json" (GoError.leaf "context canceled") rfl rfl rfl rfl rfl).2.1,
   (ScanFS_rego_error_wrapped (ctxAwareEnv ["a.json"] [ruleR1 false]) (New DemoT [])
      cancelledDuringRule "fs" "." [] [] [] "a.json" (GoError.leaf "context canceled")
      rfl rfl rfl rfl rfl).2.1,
   (ScanFS_rego_error_wrapped
      (demoEnv ["a.json", "fail.json", "b.json"] [ruleR1 false] (fun p => ["P:" ++ p]))
      (New DemoT []) background "fs" "." [] ["a.json"] ["b.json"] "fail.json"
      (GoError.leaf "eval error") rfl rfl rfl rfl rfl).2.1⟩

/-! ## C10: scanner options -/

theorem lastWrite_cons_none {α : Type} (target : ScannerOption → Option α) (zero : α)
    (opt : ScannerOption) (rest : List ScannerOption) (h : target opt = none) :
    lastWrite target zero (opt :: rest) = lastWrite target zero rest := by
  simp [lastWrite, List.filterMap_cons, h]

theorem lastWrite_cons_some {α : Type} (target : ScannerOption → Option α) (zero v : α)
    (opt : ScannerOption) (rest : List ScannerOption) (h : target opt = some v) :
    lastWrite target zero (opt :: rest) = lastWrite target v rest := by
  simp only [lastWrite, List.filterMap_cons, h, List.getLast?_cons]
  cases (List.filterMap target rest).getLast? <;> rfl

theorem foldl_options {T : Types} (opts : List ScannerOption) :
    ∀ s : Scanner T,
      opts.foldl (fun sc opt => opt.call (Scanner.configurable T) sc) s =
        { scannerOptions := s.scannerOptions
          frameworks := lastWrite frameworksOf s.frameworks opts
          regoOnly := lastWrite regoOnlyOf s.regoOnly opts
          regoScanner := s.regoScanner
          includeDeprecatedChecks :=
            lastWrite includeDeprecatedChecksOf s.includeDeprecatedChecks opts } := by
  induction opts with
  | nil => intro s; rfl
  | cons opt rest ih =>
    intro s
    rw [List.foldl_cons, ih]
    cases opt with
    | withIncludeDeprecatedChecks enabled =>
      rw [lastWrite_cons_none frameworksOf _ (.withIncludeDeprecatedChecks enabled) _ rfl,
        lastWrite_cons_none regoOnlyOf _ (.withIncludeDeprecatedChecks enabled) _ rfl,
        lastWrite_cons_some includeDeprecatedChecksOf _ enabled
          (.withIncludeDeprecatedChecks enabled) _ rfl]
      rfl
    | withFrameworks frameworks =>
      rw [lastWrite_cons_some frameworksOf _ frameworks (.withFrameworks frameworks) _ rfl,
        lastWrite_cons_none regoOnlyOf _ (.withFrameworks frameworks) _ rfl,
        lastWrite_cons_none includeDeprecatedChecksOf _ (.withFrameworks frameworks) _ rfl]
      rfl
    | withRegoOnly regoOnly =>
      rw [lastWrite_cons_none frameworksOf _ (.withRegoOnly regoOnly) _ rfl,
        lastWrite_cons_some regoOnlyOf _ regoOnly (.withRegoOnly regoOnly) _ rfl,
        lastWrite_cons_none includeDeprecatedChecksOf _ (.withRegoOnly regoOnly) _ rfl]
      rfl

/-- C10. Applied to a scanner, `ScannerWithFrameworks`, `ScannerWithRegoOnly`
and `ScannerWithIncludeDeprecatedChecks` each call the one setter they are
named after, which sets the field `frameworks`, `regoOnly`,
`includeDeprecatedChecks` respectively to the argument and leaves every other
field as it was. `New` keeps the option list, starts without frameworks, with
both flags false and without interpreter, and applies the options in order:
each of the three fields ends as the argument of the last option of the list
that targets it, or as its zero value when no option does. -/
theorem New_last_option_wins (T : Types) :
    (∀ (s : Scanner T) (frameworks : List Framework),
      (ScannerWithFrameworks frameworks).call (Scanner.configurable T) s =
        { s with frameworks := frameworks }) ∧
    (∀ (s : Scanner T) (regoOnly : Bool),
      (ScannerWithRegoOnly regoOnly).call (Scanner.configurable T) s =
        { s with regoOnly := regoOnly }) ∧
    (∀ (s : Scanner T) (enabled : Bool),
      (ScannerWithIncludeDeprecatedChecks enabled).call (Scanner.configurable T) s =
        { s with includeDeprecatedChecks := enabled }) ∧
    (∀ (σ : Type) (i : ConfigurableScanner σ) (x : σ) (frameworks : List Framework)
        (b : Bool),
      (ScannerWithFrameworks frameworks).call i x = i.SetFrameworks frameworks x ∧
      (ScannerWithRegoOnly b).call i x = i.SetRegoOnly b x ∧
      (ScannerWithIncludeDeprecatedChecks b).call i x = i.SetIncludeDeprecatedChecks b x) ∧
    (New T [] : Scanner T) =
      { scannerOptions := [], frameworks := [], regoOnly := false, regoScanner := none,
        includeDeprecatedChecks := false } ∧
    (∀ opts : List ScannerOption,
      (New T opts).frameworks = ((opts.filterMap frameworksOf).getLast?).getD [] ∧
      (New T opts).regoOnly = ((opts.filterMap regoOnlyOf).getLast?).getD false ∧
      (New T opts).includeDeprecatedChecks =
        ((opts.filterMap includeDeprecatedChecksOf).getLast?).getD false ∧
      (New T opts).scannerOptions = opts ∧
      (New T opts).regoScanner = none) := by
  refine ⟨fun _ _ => rfl, fun _ _ => rfl, fun _ _ => rfl, fun _ _ _ _ _ => ⟨rfl, rfl, rfl⟩,
    rfl, ?_⟩
  intro opts
  simp only [New, foldl_options, lastWrite]
  exact ⟨trivial, trivial, trivial, trivial, trivial⟩

theorem New_last_option_wins_witness :
    (New DemoT [ScannerWithRegoOnly true, ScannerWithFrameworks ["cis"],
        ScannerWithRegoOnly false, ScannerWithFrameworks ["default", "cis"]]).frameworks =
      ["default", "cis"] ∧
    (New DemoT [ScannerWithRegoOnly true, ScannerWithFrameworks ["cis"],
        ScannerWithRegoOnly false, ScannerWithFrameworks ["default", "cis"]]).regoOnly =
      false ∧
    (New DemoT [ScannerWithRegoOnly true, ScannerWithFrameworks ["cis"],
        ScannerWithRegoOnly false,
        ScannerWithFrameworks ["default", "cis"]]).includeDeprecatedChecks = false :=
  ⟨((New_last_option_wins DemoT).2.2.2.2.2 _).1.trans rfl,
   ((New_last_option_wins DemoT).2.2.2.2.2 _).2.1.trans rfl,
   ((New_last_option_wins DemoT).2.2.2.2.2 _).2.2.1.trans rfl⟩

end Arm
